import Mathlib

/-!
Shallow embedding of the body-manage service (src/manage/service.py).

Records in the configuration file are JSON-like documents; we model them as
an inductive `JValue` with objects as ordered association lists, matching the
Python dict semantics of the source (unique keys, insertion order, replace in
place on assignment).

External collaborators (the schema validator, the filesystem probes, the
supervisor and nvm queries, and the disk persist) are modelled as an `Env`
of oracles, per the spec's interface descriptions.  A Python exception that
escapes the manager is modelled as `Except.error`.
-/

namespace BodyManage

/-- JSON-like value as stored in the manage configuration. -/
inductive JValue : Type where
  | null : JValue
  | bool : Bool → JValue
  | str : String → JValue
  | obj : List (String × JValue) → JValue

/-- The fields of a JSON object, in insertion order. -/
abbrev Fields := List (String × JValue)

/-- Look a key up in an object's field list (first occurrence, as in a
Python dict where keys are unique). -/
def ogetField : Fields → String → Option JValue
  | [], _ => none
  | (k, v) :: rest, key => if k = key then some v else ogetField rest key

/-- Set a key in a field list: replace in place when present, append when
new (Python dict assignment). -/
def osetField : Fields → String → JValue → Fields
  | [], key, x => [(key, x)]
  | (k, v) :: rest, key, x =>
      if k = key then (k, x) :: rest else (k, v) :: osetField rest key x

/-- Delete a key from a field list (Python `del d[k]`). -/
def odelField (l : Fields) (key : String) : Fields :=
  l.filter (fun p => p.1 != key)

/-- Key lookup on a `JValue`; `none` when the value is not an object or the
key is missing. -/
def jget : JValue → String → Option JValue
  | JValue.obj fs, key => ogetField fs key
  | _, _ => none

/-- Key assignment on a `JValue` object; identity on non-objects (the source
only assigns into objects). -/
def jset : JValue → String → JValue → JValue
  | JValue.obj fs, key, x => JValue.obj (osetField fs key x)
  | v, _, _ => v

/-- Python truthiness of a JSON value (`if data.node.nvm:` style tests). -/
def jtruthy : JValue → Bool
  | JValue.null => false
  | JValue.bool b => b
  | JValue.str s => s != ""
  | JValue.obj l => !l.isEmpty

/-- Whether a value is the JSON null (Python `== None`). -/
def isNull : JValue → Bool
  | JValue.null => true
  | _ => false

/-- Deep merge of two field lists.  Modelled from the spec: the external
`tools.combine` "deep-merges `partial_record` onto the existing stored
record (supplied fields override ... recursively)"; when both sides hold an
object the merge recurses, otherwise the second side's value overrides. -/
def combineFields : Fields → Fields → Fields
  | a, [] => a
  | a, (k, JValue.obj y) :: rest =>
    combineFields
      (osetField a k
        (match ogetField a k with
         | some (JValue.obj x) => JValue.obj (combineFields x y)
         | _ => JValue.obj y))
      rest
  | a, (k, v) :: rest => combineFields (osetField a k v) rest
termination_by _a b => sizeOf b

/-- Deep merge on values.  Modelled from the spec: the external
`tools.combine`, used by both update operations. -/
def combine : JValue → JValue → JValue
  | JValue.obj a, JValue.obj b => JValue.obj (combineFields a b)
  | _, b => b

/-- How one overriding value lands on an optional existing value during the
deep merge: objects merge recursively, everything else overrides. -/
def mergeVal : Option JValue → JValue → JValue
  | some (JValue.obj x), JValue.obj y => JValue.obj (combineFields x y)
  | _, v => v

/-- Oracles for every external collaborator of the service: filesystem
probes, the two subprocess queries, the schema validator (returning `none`
when valid, else the failure list), and whether the disk persist succeeds.
`Except.error` on a query models `subprocess.CalledProcessError`. -/
structure Env where
  isdir : String → Bool
  isfile : String → Bool
  expanduser : String → String
  abspath : String → String
  nvmQuery : String → Except String Bool
  supers : Except String (List String)
  portalSchema : JValue → Option (List (String × String))
  restSchema : JValue → Option (List (String × String))
  persistOk : Bool

/-- Python `str.strip()`: drop leading and trailing whitespace.  Implemented
over the character list so that concrete proofs can evaluate it. -/
def pyStrip (s : String) : String :=
  String.mk (((s.data.dropWhile Char.isWhitespace).reverse.dropWhile
    Char.isWhitespace).reverse)

/-- The Python membership test `'~' in s`, over the character list. -/
def hasTilde (s : String) : Bool :=
  s.data.any (fun c => c = '~')

/-- The path normalisation the source applies before existence checks:
`expanduser` when the string holds a tilde, then `abspath`. -/
def resolvePath (env : Env) (s : String) : String :=
  env.abspath (if hasTilde s then env.expanduser s else s)

/-- The configuration document: the two top-level mappings. -/
structure Config where
  portals : Fields
  rest : Fields

/-- Service state: the in-memory configuration snapshot and the persisted
file's parsed content. -/
structure MState where
  conf : Config
  file : Config

/-- A request's `data` payload: `name` and `record`, either possibly
missing. -/
structure Req where
  name : Option String
  record : Option JValue

/-- The structured responses the manager returns (body framework `Response`
and `Error` codes). -/
inductive Resp : Type where
  | ok : Resp
  | dataFields : List (String × String) → Resp
  | duplicate : String → String → Resp
  | noRecord : String → String → Resp
  | createFailed : Resp
deriving DecidableEq

/-- The directory-existence check on a trimmed path field: error entry when
the resolved path is not a directory. -/
def dirErrors (env : Env) (key : String) (trimmed : String) : List (String × String) :=
  if env.isdir (resolvePath env trimmed) then [] else [(key, "not a valid directory")]

/-- Lines 111-142 of service.py given the `node` block's fields: normalise
`data.node.nvm` (strip; blank or absent becomes null; otherwise query the
nvm alias list) and collect errors.  Attribute access on a non-string raises,
modelled as `Except.error`. -/
def nvmCheckFields (env : Env) (data : JValue) (nf : Fields) :
    Except String (JValue × List (String × String)) :=
  match ogetField nf "nvm" with
  | some v =>
    if jtruthy v then
      match v with
      | JValue.str s =>
        if (pyStrip s) = "" then
          Except.ok (jset data "node" (JValue.obj (osetField nf "nvm" JValue.null)), [])
        else
          match env.nvmQuery (pyStrip s) with
          | Except.ok true =>
            Except.ok (jset data "node" (JValue.obj (osetField nf "nvm" (JValue.str (pyStrip s)))), [])
          | Except.ok false =>
            Except.ok (jset data "node" (JValue.obj (osetField nf "nvm" (JValue.str (pyStrip s)))),
              [("record.node.nvm", "invalid alias")])
          | Except.error m =>
            Except.ok (jset data "node" (JValue.obj (osetField nf "nvm" (JValue.str (pyStrip s)))),
              [("record.node.nvm", m)])
      | _ => Except.error "AttributeError"
    else
      Except.ok (jset data "node" (JValue.obj (osetField nf "nvm" JValue.null)), [])
  | none => Except.ok (jset data "node" (JValue.obj (osetField nf "nvm" JValue.null)), [])

/-- Fetch the `node` block for the nvm check.  Modelled from the spec: the
dynamic attribute-style request object yields an empty nested object for a
missing block (`data.node.nvm = None` succeeds with no `node` supplied); a
non-object `node` raises on attribute access. -/
def nvmCheck (env : Env) (data : JValue) :
    Except String (JValue × List (String × String)) :=
  match jget data "node" with
  | some (JValue.obj nf) => nvmCheckFields env data nf
  | none => nvmCheckFields env data []
  | some _ => Except.error "AttributeError"

/-- Lines 94-142 of service.py: strip `data.output`, check the resolved
directory, then run the nvm check; errors accumulate in source order. -/
def portalOutputCheck (env : Env) (d1 : JValue) (e1 : List (String × String)) :
    Except String (JValue × List (String × String)) :=
  match jget d1 "output" with
  | some (JValue.str o) =>
    match nvmCheck env (jset d1 "output" (JValue.str (pyStrip o))) with
    | Except.error m => Except.error m
    | Except.ok (d3, e3) =>
      Except.ok (d3, e1 ++ dirErrors env "output" (pyStrip o) ++ e3)
  | some _ => Except.error "AttributeError"
  | none => Except.error "AttributeError"

/-- Lines 74-142 of service.py: strip `data.path`, check the resolved
directory, then the output and nvm checks. -/
def portal_checks (env : Env) (data : JValue) :
    Except String (JValue × List (String × String)) :=
  match jget data "path" with
  | some (JValue.str p) =>
    portalOutputCheck env (jset data "path" (JValue.str (pyStrip p))) (dirErrors env "path" (pyStrip p))
  | some _ => Except.error "AttributeError"
  | none => Except.error "AttributeError"

/-- Lines 148-164 of service.py: clone the configuration, set the portal
entry, persist; on store failure return the error and keep the old state. -/
def persistPortal (env : Env) (st : MState) (name : String) (data : JValue) :
    Resp × MState :=
  let dConf : Config := { st.conf with portals := osetField st.conf.portals name data }
  if env.persistOk then (Resp.ok, { conf := dConf, file := dConf })
  else (Resp.createFailed, st)

/-- `Manage._portal_validation`: schema check, normalisation and probe
checks, then persist when no errors accumulated. -/
def portal_validation (env : Env) (st : MState) (name : String) (data : JValue) :
    Except String (Resp × MState) :=
  match env.portalSchema data with
  | some fails =>
    Except.ok (Resp.dataFields (fails.map (fun l => ("record." ++ l.1, l.2))), st)
  | none =>
    match portal_checks env data with
    | Except.error m => Except.error m
    | Except.ok (d, errs) =>
      if errs = [] then Except.ok (persistPortal env st name d)
      else Except.ok (Resp.dataFields errs, st)

/-- `Manage.portal_create`: field-presence check, duplicate-name check, then
the shared validation. -/
def portal_create (env : Env) (st : MState) (req : Req) :
    Except String (Resp × MState) :=
  match req.name, req.record with
  | none, none => Except.ok (Resp.dataFields [("name", "missing"), ("record", "missing")], st)
  | none, some _ => Except.ok (Resp.dataFields [("name", "missing")], st)
  | some _, none => Except.ok (Resp.dataFields [("record", "missing")], st)
  | some n, some record =>
    if (ogetField st.conf.portals n).isSome then
      Except.ok (Resp.duplicate n "portals", st)
    else
      portal_validation env st n record

/-- `Manage.portal_update`: existence check, deep merge of the partial
record onto the stored one, then the shared validation. -/
def portal_update (env : Env) (st : MState) (req : Req) :
    Except String (Resp × MState) :=
  match req.name, req.record with
  | none, none => Except.ok (Resp.dataFields [("name", "missing"), ("record", "missing")], st)
  | none, some _ => Except.ok (Resp.dataFields [("name", "missing")], st)
  | some _, none => Except.ok (Resp.dataFields [("record", "missing")], st)
  | some n, some record =>
    match ogetField st.conf.portals n with
    | none => Except.ok (Resp.noRecord n "portal", st)
    | some old => portal_validation env st n (combine old record)

/-- `Manage.portal_delete`: existence check, remove the entry from a clone,
persist, swap. -/
def portal_delete (env : Env) (st : MState) (req : Req) :
    Except String (Resp × MState) :=
  match req.name with
  | none => Except.ok (Resp.dataFields [("name", "missing")], st)
  | some n =>
    if (ogetField st.conf.portals n).isSome then
      let dConf : Config := { st.conf with portals := odelField st.conf.portals n }
      if env.persistOk then Except.ok (Resp.ok, { conf := dConf, file := dConf })
      else Except.ok (Resp.createFailed, st)
    else
      Except.ok (Resp.noRecord n "portal", st)

/-- `Manage.portals_read`: the full current portals mapping. -/
def portals_read (st : MState) : Fields :=
  st.conf.portals

/-- Lines 334-394 of service.py, one optional python path field (`which` or
`requirements`): strip; blank or absent becomes null; otherwise resolve and
require an existing file, keeping the trimmed value. -/
def pyFieldCheck (env : Env) (pf : Fields) (key : String) :
    Except String (Fields × List (String × String)) :=
  match ogetField pf key with
  | some v =>
    if jtruthy v then
      match v with
      | JValue.str s =>
        if (pyStrip s) = "" then Except.ok (osetField pf key JValue.null, [])
        else
          Except.ok (osetField pf key (JValue.str (pyStrip s)),
            if env.isfile (resolvePath env (pyStrip s)) then []
            else [("python." ++ key, "not found")])
      | _ => Except.error "AttributeError"
    else Except.ok (osetField pf key JValue.null, [])
  | none => Except.ok (osetField pf key JValue.null, [])

/-- Lines 417-452 of service.py for one service entry: normalise its
`supervisor` field (strip; blank or absent becomes null), then check the
effective program name against the supervisor listing.  When the earlier
`supervisorctl avail` call failed, `lPrograms` was never assigned and the
membership test raises, modelled as `Except.error`. -/
def serviceStep (progsO : Option (List String)) (k : String) (d : JValue) :
    Except String (JValue × List (String × String)) :=
  match d with
  | JValue.obj df =>
    match
      (match ogetField df "supervisor" with
       | some v =>
         if jtruthy v then
           match v with
           | JValue.str s =>
             Except.ok (if (pyStrip s) = "" then none else some (pyStrip s))
           | _ => Except.error "AttributeError"
         else Except.ok (none : Option String)
       | none => Except.ok (none : Option String)) with
    | Except.error m => Except.error m
    | Except.ok supO =>
      match progsO with
      | none => Except.error "UnboundLocalError"
      | some progs =>
        match supO with
        | some t =>
          Except.ok (JValue.obj (osetField df "supervisor" (JValue.str t)),
            if t ∈ progs then []
            else [("record.services." ++ k ++ ".supervisor", "not a valid supervisor program")])
        | none =>
          Except.ok (JValue.obj (osetField df "supervisor" JValue.null),
            if k ∈ progs then []
            else [("record.services." ++ k, "not a valid supervisor program")])
  | _ => Except.error "AttributeError"

/-- The services loop of `Manage._rest_validation`, in iteration order. -/
def restServicesCheck (progsO : Option (List String)) :
    Fields → Except String (Fields × List (String × String))
  | [] => Except.ok ([], [])
  | (k, d) :: rest =>
    match serviceStep progsO k d with
    | Except.error m => Except.error m
    | Except.ok (d1, e) =>
      match restServicesCheck progsO rest with
      | Except.error m => Except.error m
      | Except.ok (rest1, es) => Except.ok ((k, d1) :: rest1, e ++ es)

/-- Fetch the `services` mapping and run the per-service loop.  A missing
`services` block behaves as an empty mapping (dynamic attribute-style
object, modelled from the spec); a non-object raises. -/
def restSvcRun (progsO : Option (List String)) (d2 : JValue)
    (e : List (String × String)) : Except String (JValue × List (String × String)) :=
  match jget d2 "services" with
  | some (JValue.obj sf) =>
    match restServicesCheck progsO sf with
    | Except.error m => Except.error m
    | Except.ok (sf2, e5) => Except.ok (jset d2 "services" (JValue.obj sf2), e ++ e5)
  | none =>
    match restServicesCheck progsO ([] : Fields) with
    | Except.error m => Except.error m
    | Except.ok (sf2, e5) => Except.ok (jset d2 "services" (JValue.obj sf2), e ++ e5)
  | some _ => Except.error "AttributeError"

/-- Lines 396-415 of service.py: the `supervisorctl avail` query; on
`CalledProcessError` an error entry on `record.services` is appended and the
program list stays unassigned. -/
def restSvcCheck (env : Env) (d2 : JValue) (e : List (String × String)) :
    Except String (JValue × List (String × String)) :=
  match env.supers with
  | Except.ok progs => restSvcRun (some progs) d2 e
  | Except.error m => restSvcRun none d2 (e ++ [("record.services", m)])

/-- Lines 334-394 of service.py: the `python.which` and
`python.requirements` checks.  A missing `python` block behaves as an empty
mapping (dynamic attribute-style object, modelled from the spec); a
non-object raises. -/
def restPyCheck (env : Env) (d1 : JValue) (e1 : List (String × String)) :
    Except String (JValue × List (String × String)) :=
  match
    (match jget d1 "python" with
     | some (JValue.obj pf) => Except.ok pf
     | none => Except.ok ([] : Fields)
     | some _ => Except.error "AttributeError") with
  | Except.error m => Except.error m
  | Except.ok pf =>
    match pyFieldCheck env pf "which" with
    | Except.error m => Except.error m
    | Except.ok (pf1, e2) =>
      match pyFieldCheck env pf1 "requirements" with
      | Except.error m => Except.error m
      | Except.ok (pf2, e3) =>
        restSvcCheck env (jset d1 "python" (JValue.obj pf2)) (e1 ++ e2 ++ e3)

/-- Lines 314-452 of service.py: strip `data.path`, check the resolved
directory, then python, supervisor-listing and services checks. -/
def rest_checks (env : Env) (data : JValue) :
    Except String (JValue × List (String × String)) :=
  match jget data "path" with
  | some (JValue.str p) =>
    restPyCheck env (jset data "path" (JValue.str (pyStrip p))) (dirErrors env "path" (pyStrip p))
  | some _ => Except.error "AttributeError"
  | none => Except.error "AttributeError"

/-- Lines 458-474 of service.py: clone the configuration, set the rest
entry, persist; on store failure return the error and keep the old state. -/
def persistRest (env : Env) (st : MState) (name : String) (data : JValue) :
    Resp × MState :=
  let dConf : Config := { st.conf with rest := osetField st.conf.rest name data }
  if env.persistOk then (Resp.ok, { conf := dConf, file := dConf })
  else (Resp.createFailed, st)

/-- `Manage._rest_validation`: schema check, normalisation and probe checks,
then persist when no errors accumulated. -/
def rest_validation (env : Env) (st : MState) (name : String) (data : JValue) :
    Except String (Resp × MState) :=
  match env.restSchema data with
  | some fails =>
    Except.ok (Resp.dataFields (fails.map (fun l => ("record." ++ l.1, l.2))), st)
  | none =>
    match rest_checks env data with
    | Except.error m => Except.error m
    | Except.ok (d, errs) =>
      if errs = [] then Except.ok (persistRest env st name d)
      else Except.ok (Resp.dataFields errs, st)

/-- `Manage.rest_create`: field-presence check, duplicate-name check, then
the shared validation. -/
def rest_create (env : Env) (st : MState) (req : Req) :
    Except String (Resp × MState) :=
  match req.name, req.record with
  | none, none => Except.ok (Resp.dataFields [("name", "missing"), ("record", "missing")], st)
  | none, some _ => Except.ok (Resp.dataFields [("name", "missing")], st)
  | some _, none => Except.ok (Resp.dataFields [("record", "missing")], st)
  | some n, some record =>
    if (ogetField st.conf.rest n).isSome then
      Except.ok (Resp.duplicate n "rest", st)
    else
      rest_validation env st n record

/-- `Manage.rest_update`: existence check, deep merge of the partial record
onto the stored one, removal of services merged to null, then the shared
validation. -/
def rest_update (env : Env) (st : MState) (req : Req) :
    Except String (Resp × MState) :=
  match req.name, req.record with
  | none, none => Except.ok (Resp.dataFields [("name", "missing"), ("record", "missing")], st)
  | none, some _ => Except.ok (Resp.dataFields [("name", "missing")], st)
  | some _, none => Except.ok (Resp.dataFields [("record", "missing")], st)
  | some n, some record =>
    match ogetField st.conf.rest n with
    | none => Except.ok (Resp.noRecord n "rest", st)
    | some old =>
      match jget (combine old record) "services" with
      | some (JValue.obj sf) =>
        rest_validation env st n
          (jset (combine old record) "services"
            (JValue.obj (sf.filter (fun q => !(isNull q.2)))))
      | none =>
        rest_validation env st n
          (jset (combine old record) "services" (JValue.obj ([] : Fields)))
      | some _ => Except.error "AttributeError"

/-- `Manage.rest_delete`: existence check, remove the entry from a clone,
persist, swap. -/
def rest_delete (env : Env) (st : MState) (req : Req) :
    Except String (Resp × MState) :=
  match req.name with
  | none => Except.ok (Resp.dataFields [("name", "missing")], st)
  | some n =>
    if (ogetField st.conf.rest n).isSome then
      let dConf : Config := { st.conf with rest := odelField st.conf.rest n }
      if env.persistOk then Except.ok (Resp.ok, { conf := dConf, file := dConf })
      else Except.ok (Resp.createFailed, st)
    else
      Except.ok (Resp.noRecord n "rest", st)

/-- `Manage.rest_read`: the full current rest mapping. -/
def rest_read (st : MState) : Fields :=
  st.conf.rest

/-- A concrete environment for witnesses: two directories exist, the
supervisor reports `api`, nvm resolves every alias, the schema oracle
accepts everything, and persisting succeeds. -/
def wEnv : Env :=
  { isdir := fun s => s == "/home/u/app" || s == "/home/u/out" || s == "/home/u/svc"
    isfile := fun _ => false
    expanduser := fun s =>
      if s == "~/app" then "/home/u/app"
      else if s == "~/svc" then "/home/u/svc" else s
    abspath := fun s => s
    nvmQuery := fun _ => Except.ok true
    supers := Except.ok ["api"]
    portalSchema := fun _ => none
    restSchema := fun _ => none
    persistOk := true }

/-- `wEnv` with a failing disk persist. -/
def wEnvNoPersist : Env := { wEnv with persistOk := false }

/-- `wEnv` with a supervisor listing that does not report `api`. -/
def wEnvNoSuper : Env := { wEnv with supers := Except.ok ["other"] }

/-- `wEnv` with a failing `supervisorctl avail` query. -/
def wEnvSuperFail : Env := { wEnv with supers := Except.error "CalledProcessError" }

/-- The empty starting state. -/
def wSt0 : MState :=
  { conf := { portals := [], rest := [] }, file := { portals := [], rest := [] } }

/-- A concrete portal record for the portal `app`. -/
def wPortalRec : JValue :=
  JValue.obj [("path", JValue.str "/home/u/app"), ("output", JValue.str "/home/u/out"),
    ("node", JValue.obj [("nvm", JValue.str "v20")])]

/-- A state already holding the portal `app`. -/
def wStApp : MState :=
  { conf := { portals := [("app", wPortalRec)], rest := [] },
    file := { portals := [("app", wPortalRec)], rest := [] } }

/-- A concrete rest record for the service `api`. -/
def wRestRec : JValue :=
  JValue.obj [("path", JValue.str "~/svc"),
    ("services", JValue.obj [("api", JValue.obj [])])]

/-- A state already holding the rest entry `api`. -/
def wStApi : MState :=
  { conf := { portals := [], rest := [("api", wRestRec)] },
    file := { portals := [], rest := [("api", wRestRec)] } }

/-- The state after a successful create of portal `app` with path " ~/app ":
the stored path is the trimmed original and `node.nvm` is null. -/
def wPortalRecStored : JValue :=
  JValue.obj [("path", JValue.str "~/app"), ("output", JValue.str "/home/u/out"),
    ("node", JValue.obj [("nvm", JValue.null)])]

def wStAppStored : MState :=
  { conf := { portals := [("app", wPortalRecStored)], rest := [] },
    file := { portals := [("app", wPortalRecStored)], rest := [] } }

/-- The state after writing portal `app` with a blank `node.nvm`: the `nvm`
key is persisted as null inside a still-present `node` block. -/
def wPortalRecNvmNull : JValue :=
  JValue.obj [("path", JValue.str "/home/u/app"), ("output", JValue.str "/home/u/out"),
    ("node", JValue.obj [("nvm", JValue.null)])]

def wStAppNvmNull : MState :=
  { conf := { portals := [("app", wPortalRecNvmNull)], rest := [] },
    file := { portals := [("app", wPortalRecNvmNull)], rest := [] } }

/-- A portal record supplied with an explicitly false git block. -/
def wPortalRecGit : JValue :=
  JValue.obj [("path", JValue.str "/home/u/app"), ("output", JValue.str "/home/u/out"),
    ("git", JValue.obj [("checkout", JValue.bool false), ("submodule", JValue.bool false)])]

/-- What the manager persists for `wPortalRecGit`: the false git flags are
stored exactly as given, and `node.nvm` is added as null. -/
def wPortalRecGitStored : JValue :=
  JValue.obj [("path", JValue.str "/home/u/app"), ("output", JValue.str "/home/u/out"),
    ("git", JValue.obj [("checkout", JValue.bool false), ("submodule", JValue.bool false)]),
    ("node", JValue.obj [("nvm", JValue.null)])]

/-- The state after creating portal `app2` from `wPortalRecGit`. -/
def wStAppGit : MState :=
  { conf := { portals := [("app2", wPortalRecGitStored)], rest := [] },
    file := { portals := [("app2", wPortalRecGitStored)], rest := [] } }

/-- The effective supervisor program name of a service entry: the trimmed
explicit `supervisor` field when it is a non-blank string, otherwise the
service name itself (lines 417-452 of service.py). -/
def supRef (k : String) (d : JValue) : String :=
  match jget d "supervisor" with
  | some (JValue.str s) => if pyStrip s = "" then k else pyStrip s
  | _ => k

/-- The field path cited when a service's supervisor reference is unknown:
`record.services.<k>.supervisor` for an explicit non-blank reference,
`record.services.<k>` otherwise. -/
def supErrKey (k : String) (d : JValue) : String :=
  match jget d "supervisor" with
  | some (JValue.str s) =>
    if pyStrip s = "" then "record.services." ++ k
    else "record.services." ++ k ++ ".supervisor"
  | _ => "record.services." ++ k

/-- The rest record stored by the C8 scenario: path kept as the trimmed
"~/svc", `services.api.supervisor` and the python fields added as null. -/
def wRestRecStored : JValue :=
  JValue.obj [("path", JValue.str "~/svc"),
    ("services", JValue.obj [("api", JValue.obj [("supervisor", JValue.null)])]),
    ("python", JValue.obj [("which", JValue.null), ("requirements", JValue.null)])]

/-- The state after the C8 scenario create. -/
def wStApiStored : MState :=
  { conf := { portals := [], rest := [("api", wRestRecStored)] },
    file := { portals := [], rest := [("api", wRestRecStored)] } }

theorem ogetField_osetField_self (l : Fields) (k : String) (v : JValue) :
    ogetField (osetField l k v) k = some v := by
  induction l with
  | nil => simp [osetField, ogetField]
  | cons a t ih =>
    obtain ⟨k0, v0⟩ := a
    by_cases h : k0 = k
    · subst h; simp [osetField, ogetField]
    · simp [osetField, ogetField, h, ih]

theorem ogetField_osetField_ne (l : Fields) (k k' : String) (v : JValue)
    (hne : k' ≠ k) : ogetField (osetField l k v) k' = ogetField l k' := by
  induction l with
  | nil => simp [osetField, ogetField, Ne.symm hne]
  | cons a t ih =>
    obtain ⟨k0, v0⟩ := a
    by_cases h : k0 = k
    · subst h; simp [osetField, ogetField, Ne.symm hne]
    · simp [osetField, ogetField, h, ih]

theorem ogetField_mem (l : Fields) (k : String) (v : JValue)
    (h : ogetField l k = some v) : (k, v) ∈ l := by
  induction l with
  | nil => simp [ogetField] at h
  | cons a t ih =>
    obtain ⟨k0, v0⟩ := a
    by_cases hk : k0 = k
    · subst hk
      simp [ogetField] at h
      simp [h]
    · simp [ogetField, hk] at h
      exact List.mem_cons_of_mem _ (ih h)

theorem ogetField_eq_none_of_not_mem (l : Fields) (k : String)
    (h : k ∉ l.map Prod.fst) : ogetField l k = none := by
  induction l with
  | nil => rfl
  | cons a t ih =>
    obtain ⟨k0, v0⟩ := a
    simp only [List.map_cons, List.mem_cons] at h
    push_neg at h
    simp [ogetField, Ne.symm h.1, ih h.2]

theorem mem_keys_osetField (l : Fields) (k k' : String) (v : JValue)
    (h : k' ∈ (osetField l k v).map Prod.fst) :
    k' ∈ l.map Prod.fst ∨ k' = k := by
  induction l with
  | nil =>
    simp only [osetField, List.map_cons, List.map_nil, List.mem_singleton] at h
    exact Or.inr h
  | cons a t ih =>
    obtain ⟨k0, v0⟩ := a
    by_cases hk : k0 = k
    · subst hk
      rw [show osetField ((k0, v0) :: t) k0 v = (k0, v) :: t from by simp [osetField]] at h
      simp only [List.map_cons, List.mem_cons] at h ⊢
      tauto
    · simp only [osetField, if_neg hk, List.map_cons, List.mem_cons] at h
      simp only [List.map_cons, List.mem_cons]
      rcases h with h | h
      · tauto
      · rcases ih h with h2 | h2 <;> tauto

theorem osetField_nodup (l : Fields) (k : String) (v : JValue)
    (h : (l.map Prod.fst).Nodup) : ((osetField l k v).map Prod.fst).Nodup := by
  induction l with
  | nil => simp [osetField]
  | cons a t ih =>
    obtain ⟨k0, v0⟩ := a
    simp only [List.map_cons, List.nodup_cons] at h
    by_cases hk : k0 = k
    · subst hk
      rw [show osetField ((k0, v0) :: t) k0 v = (k0, v) :: t from by simp [osetField]]
      simp only [List.map_cons, List.nodup_cons]
      exact h
    · simp only [osetField, if_neg hk, List.map_cons, List.nodup_cons]
      refine ⟨fun hmem => ?_, ih h.2⟩
      rcases mem_keys_osetField t k k0 v hmem with h2 | h2
      · exact h.1 h2
      · exact hk h2

theorem ogetField_odelField_self (l : Fields) (k : String) :
    ogetField (odelField l k) k = none := by
  induction l with
  | nil => rfl
  | cons a t ih =>
    obtain ⟨k0, v0⟩ := a
    by_cases hk : k0 = k
    · subst hk
      simpa [odelField, List.filter_cons] using ih
    · have hb : (k0 != k) = true := by simp [hk]
      simpa [odelField, List.filter_cons, hb, ogetField, hk] using ih

theorem ogetField_odelField_ne (l : Fields) (k k' : String) (hne : k' ≠ k) :
    ogetField (odelField l k) k' = ogetField l k' := by
  induction l with
  | nil => rfl
  | cons a t ih =>
    obtain ⟨k0, v0⟩ := a
    by_cases hk : k0 = k
    · subst hk
      simpa [odelField, List.filter_cons, ogetField, Ne.symm hne] using ih
    · have hb : (k0 != k) = true := by simp [hk]
      by_cases hk' : k0 = k'
      · subst hk'
        simp [odelField, List.filter_cons, hb, ogetField]
      · simpa [odelField, List.filter_cons, hb, ogetField, hk'] using ih

theorem combineFields_nil (a : Fields) : combineFields a [] = a := by
  simp [combineFields]

theorem combineFields_cons (a : Fields) (k : String) (v : JValue) (rest : Fields) :
    combineFields a ((k, v) :: rest) =
      combineFields (osetField a k (mergeVal (ogetField a k) v)) rest := by
  cases hx : ogetField a k with
  | none => cases v <;> simp [combineFields, mergeVal, hx]
  | some w => cases w <;> cases v <;> simp [combineFields, mergeVal, hx]

theorem combineFields_get (b : Fields) : ∀ (a : Fields) (k : String),
    (b.map Prod.fst).Nodup →
    ogetField (combineFields a b) k =
      (match ogetField b k with
       | some v => some (mergeVal (ogetField a k) v)
       | none => ogetField a k) := by
  induction b with
  | nil =>
    intro a k _
    simp [combineFields_nil, ogetField]
  | cons p rest ih =>
    obtain ⟨k0, v0⟩ := p
    intro a k hb
    simp only [List.map_cons, List.nodup_cons] at hb
    rw [combineFields_cons, ih _ k hb.2]
    by_cases hk : k0 = k
    · subst hk
      rw [ogetField_eq_none_of_not_mem rest k0 (by simpa using hb.1)]
      simp [ogetField, ogetField_osetField_self]
    · have h1 := ogetField_osetField_ne a k0 k (mergeVal (ogetField a k0) v0) (Ne.symm hk)
      cases hrk : ogetField rest k <;> simp [ogetField, hk, h1, hrk]

theorem combineFields_nodup (b : Fields) : ∀ (a : Fields),
    (a.map Prod.fst).Nodup → ((combineFields a b).map Prod.fst).Nodup := by
  induction b with
  | nil =>
    intro a h
    simpa [combineFields_nil] using h
  | cons p rest ih =>
    obtain ⟨k0, v0⟩ := p
    intro a h
    rw [combineFields_cons]
    exact ih _ (osetField_nodup a k0 _ h)

theorem mem_keys_filter (p : String × JValue → Bool) (l : Fields) (k : String)
    (h : k ∈ (l.filter p).map Prod.fst) : k ∈ l.map Prod.fst := by
  simp only [List.mem_map] at h ⊢
  obtain ⟨q, hq, hqk⟩ := h
  exact ⟨q, (List.mem_filter.mp hq).1, hqk⟩

theorem ogetField_filter_null_none (l : Fields) (k : String)
    (hnd : (l.map Prod.fst).Nodup) (h : ogetField l k = some JValue.null) :
    ogetField (l.filter (fun q => !(isNull q.2))) k = none := by
  induction l with
  | nil => simp [ogetField] at h
  | cons p t ih =>
    obtain ⟨k0, v0⟩ := p
    simp only [List.map_cons, List.nodup_cons] at hnd
    by_cases hk : k0 = k
    · subst hk
      rw [show ogetField ((k0, v0) :: t) k0 = some v0 from by simp [ogetField]] at h
      injection h with h
      subst h
      rw [List.filter_cons]
      simp only [isNull, Bool.not_true, Bool.false_eq_true, if_false]
      apply ogetField_eq_none_of_not_mem
      intro hmem
      exact hnd.1 (mem_keys_filter _ t k0 hmem)
    · simp only [ogetField, if_neg hk] at h
      rw [List.filter_cons]
      by_cases hv : (!(isNull v0)) = true
      · simp only [hv, if_true]
        simpa [ogetField, hk] using ih hnd.2 h
      · simp only [hv, if_false]
        exact ih hnd.2 h

theorem ogetField_filter_nonnull (l : Fields) (k : String) (v : JValue)
    (h : ogetField (l.filter (fun q => !(isNull q.2))) k = some v) :
    isNull v = false := by
  have hm := ogetField_mem _ _ _ h
  have h2 := (List.mem_filter.mp hm).2
  simpa using h2

theorem portal_validation_state (env : Env) (st : MState) (name : String)
    (data : JValue) (r : Resp) (st' : MState)
    (h : portal_validation env st name data = Except.ok (r, st'))
    (hr : r ≠ Resp.ok) : st' = st := by
  unfold portal_validation at h
  split at h
  · injection h with h
    injection h with h1 h2
    exact h2.symm
  · split at h
    · exact absurd h (by simp)
    · split at h
      · simp only [persistPortal] at h
        split at h
        · injection h with h
          injection h with h1 h2
          exact absurd h1.symm hr
        · injection h with h
          injection h with h1 h2
          exact h2.symm
      · injection h with h
        injection h with h1 h2
        exact h2.symm

theorem rest_validation_state (env : Env) (st : MState) (name : String)
    (data : JValue) (r : Resp) (st' : MState)
    (h : rest_validation env st name data = Except.ok (r, st'))
    (hr : r ≠ Resp.ok) : st' = st := by
  unfold rest_validation at h
  split at h
  · injection h with h
    injection h with h1 h2
    exact h2.symm
  · split at h
    · exact absurd h (by simp)
    · split at h
      · simp only [persistRest] at h
        split at h
        · injection h with h
          injection h with h1 h2
          exact absurd h1.symm hr
        · injection h with h
          injection h with h1 h2
          exact h2.symm
      · injection h with h
        injection h with h1 h2
        exact h2.symm

theorem portal_validation_ok (env : Env) (st : MState) (name : String)
    (data : JValue) (st' : MState)
    (h : portal_validation env st name data = Except.ok (Resp.ok, st')) :
    env.portalSchema data = none ∧ env.persistOk = true ∧
    ∃ d, portal_checks env data = Except.ok (d, []) ∧
      st'.conf.portals = osetField st.conf.portals name d ∧
      st'.conf.rest = st.conf.rest ∧ st'.file = st'.conf := by
  unfold portal_validation at h
  split at h
  · injection h with h
    injection h with h1 h2
    exact absurd h1 (by simp)
  · rename_i hsch
    split at h
    · exact absurd h (by simp)
    · rename_i d errs hchk
      split at h
      · rename_i herrs
        subst herrs
        simp only [persistPortal] at h
        split at h
        · rename_i hper
          injection h with h
          injection h with h1 h2
          subst h2
          exact ⟨hsch, hper, d, hchk, rfl, rfl, rfl⟩
        · injection h with h
          injection h with h1 h2
          exact absurd h1 (by simp)
      · injection h with h
        injection h with h1 h2
        exact absurd h1 (by simp)

theorem rest_validation_ok (env : Env) (st : MState) (name : String)
    (data : JValue) (st' : MState)
    (h : rest_validation env st name data = Except.ok (Resp.ok, st')) :
    env.restSchema data = none ∧ env.persistOk = true ∧
    ∃ d, rest_checks env data = Except.ok (d, []) ∧
      st'.conf.rest = osetField st.conf.rest name d ∧
      st'.conf.portals = st.conf.portals ∧ st'.file = st'.conf := by
  unfold rest_validation at h
  split at h
  · injection h with h
    injection h with h1 h2
    exact absurd h1 (by simp)
  · rename_i hsch
    split at h
    · exact absurd h (by simp)
    · rename_i d errs hchk
      split at h
      · rename_i herrs
        subst herrs
        simp only [persistRest] at h
        split at h
        · rename_i hper
          injection h with h
          injection h with h1 h2
          subst h2
          exact ⟨hsch, hper, d, hchk, rfl, rfl, rfl⟩
        · injection h with h
          injection h with h1 h2
          exact absurd h1 (by simp)
      · injection h with h
        injection h with h1 h2
        exact absurd h1 (by simp)

theorem nvmCheckFields_shape (env : Env) (data : JValue) (nf : Fields)
    (d : JValue) (e : List (String × String))
    (h : nvmCheckFields env data nf = Except.ok (d, e)) :
    ∃ nv, d = jset data "node" (JValue.obj (osetField nf "nvm" nv)) ∧
      (nv = JValue.null ∨
       ∃ s, ogetField nf "nvm" = some (JValue.str s) ∧ (pyStrip s) ≠ "" ∧
         nv = JValue.str (pyStrip s)) := by
  unfold nvmCheckFields at h
  split at h
  · rename_i v hv
    split at h
    · split at h
      · rename_i s htru
        split at h
        · injection h with h
          injection h with h1 h2
          exact ⟨JValue.null, h1.symm, Or.inl rfl⟩
        · rename_i htr
          split at h
          · injection h with h
            injection h with h1 h2
            exact ⟨JValue.str (pyStrip s), h1.symm, Or.inr ⟨s, hv, htr, rfl⟩⟩
          · injection h with h
            injection h with h1 h2
            exact ⟨JValue.str (pyStrip s), h1.symm, Or.inr ⟨s, hv, htr, rfl⟩⟩
          · injection h with h
            injection h with h1 h2
            exact ⟨JValue.str (pyStrip s), h1.symm, Or.inr ⟨s, hv, htr, rfl⟩⟩
      · exact absurd h (by simp)
    · injection h with h
      injection h with h1 h2
      exact ⟨JValue.null, h1.symm, Or.inl rfl⟩
  · injection h with h
    injection h with h1 h2
    exact ⟨JValue.null, h1.symm, Or.inl rfl⟩

theorem nvmCheck_shape (env : Env) (data d : JValue) (e : List (String × String))
    (h : nvmCheck env data = Except.ok (d, e)) :
    ∃ nf nv,
      (jget data "node" = some (JValue.obj nf) ∨ (jget data "node" = none ∧ nf = [])) ∧
      d = jset data "node" (JValue.obj (osetField nf "nvm" nv)) ∧
      (nv = JValue.null ∨
       ∃ s, ogetField nf "nvm" = some (JValue.str s) ∧ (pyStrip s) ≠ "" ∧
         nv = JValue.str (pyStrip s)) := by
  unfold nvmCheck at h
  split at h
  · rename_i nf hn
    obtain ⟨nv, h1, h2⟩ := nvmCheckFields_shape env data nf d e h
    exact ⟨nf, nv, Or.inl hn, h1, h2⟩
  · rename_i hn
    obtain ⟨nv, h1, h2⟩ := nvmCheckFields_shape env data ([] : Fields) d e h
    exact ⟨[], nv, Or.inr ⟨hn, rfl⟩, h1, h2⟩
  · exact absurd h (by simp)

theorem portal_checks_shape (env : Env) (data d : JValue)
    (errs : List (String × String))
    (h : portal_checks env data = Except.ok (d, errs)) :
    ∃ df p o nf nv,
      data = JValue.obj df ∧
      ogetField df "path" = some (JValue.str p) ∧
      ogetField df "output" = some (JValue.str o) ∧
      (ogetField df "node" = some (JValue.obj nf) ∨
        (ogetField df "node" = none ∧ nf = [])) ∧
      d = JValue.obj (osetField (osetField (osetField df "path" (JValue.str (pyStrip p)))
            "output" (JValue.str (pyStrip o))) "node" (JValue.obj (osetField nf "nvm" nv))) ∧
      (nv = JValue.null ∨
       ∃ s, ogetField nf "nvm" = some (JValue.str s) ∧ (pyStrip s) ≠ "" ∧
         nv = JValue.str (pyStrip s)) := by
  unfold portal_checks at h
  split at h
  · rename_i p hpath
    cases data with
    | obj df =>
      have hp : ogetField df "path" = some (JValue.str p) := hpath
      unfold portalOutputCheck at h
      split at h
      · rename_i o hout
        have ho : ogetField df "output" = some (JValue.str o) := by
          have h2 := hout
          simp only [jset, jget] at h2
          rwa [ogetField_osetField_ne df "path" "output" _ (by decide)] at h2
        split at h
        · exact absurd h (by simp)
        · rename_i d3 e3 hnv3
          obtain ⟨nf, nv, hnode, hd3, hnv⟩ := nvmCheck_shape env _ d3 e3 hnv3
          simp only [jset, jget] at hnode hd3
          rw [ogetField_osetField_ne _ "output" "node" _ (by decide),
            ogetField_osetField_ne _ "path" "node" _ (by decide)] at hnode
          injection h with h
          injection h with h1 h2
          exact ⟨df, p, o, nf, nv, rfl, hp, ho, hnode, h1 ▸ hd3, hnv⟩
      · exact absurd h (by simp)
      · exact absurd h (by simp)
    | null => exact absurd hpath (by simp [jget])
    | bool b => exact absurd hpath (by simp [jget])
    | str s => exact absurd hpath (by simp [jget])
  · exact absurd h (by simp)
  · exact absurd h (by simp)

theorem pyFieldCheck_shape (env : Env) (pf : Fields) (key : String)
    (pf' : Fields) (e : List (String × String))
    (h : pyFieldCheck env pf key = Except.ok (pf', e)) :
    ∃ w, pf' = osetField pf key w ∧
      (w = JValue.null ∨
       ∃ s, ogetField pf key = some (JValue.str s) ∧ (pyStrip s) ≠ "" ∧
         w = JValue.str (pyStrip s)) := by
  unfold pyFieldCheck at h
  split at h
  · rename_i v hv
    split at h
    · split at h
      · rename_i s htru
        split at h
        · injection h with h
          injection h with h1 h2
          exact ⟨JValue.null, h1.symm, Or.inl rfl⟩
        · rename_i htr
          injection h with h
          injection h with h1 h2
          exact ⟨JValue.str (pyStrip s), h1.symm, Or.inr ⟨s, hv, htr, rfl⟩⟩
      · exact absurd h (by simp)
    · injection h with h
      injection h with h1 h2
      exact ⟨JValue.null, h1.symm, Or.inl rfl⟩
  · injection h with h
    injection h with h1 h2
    exact ⟨JValue.null, h1.symm, Or.inl rfl⟩

theorem serviceStep_shape (progsO : Option (List String)) (k : String)
    (d d1 : JValue) (e : List (String × String))
    (h : serviceStep progsO k d = Except.ok (d1, e)) :
    ∃ df x, d = JValue.obj df ∧ d1 = JValue.obj (osetField df "supervisor" x) ∧
      (x = JValue.null ∨ ∃ s, ogetField df "supervisor" = some (JValue.str s) ∧
        pyStrip s ≠ "" ∧ x = JValue.str (pyStrip s)) := by
  unfold serviceStep at h
  split at h
  · rename_i df
    split at h
    · exact absurd h (by simp)
    · split at h
      · exact absurd h (by simp)
      · split at h
        · rename_i t hsupO
          injection h with h
          injection h with h1 h2
          refine ⟨df, JValue.str t, rfl, h1.symm, Or.inr ?_⟩
          split at hsupO
          · rename_i v hv
            split at hsupO
            · split at hsupO
              · rename_i s htru
                injection hsupO with hsupO
                by_cases hps : pyStrip s = ""
                · rw [if_pos hps] at hsupO
                  exact absurd hsupO (by simp)
                · rw [if_neg hps] at hsupO
                  injection hsupO with hsupO
                  exact ⟨s, hv, hps, by rw [hsupO]⟩
              · exact absurd hsupO (by simp)
            · injection hsupO with hsupO
              exact absurd hsupO (by simp)
          · injection hsupO with hsupO
            exact absurd hsupO (by simp)
        · injection h with h
          injection h with h1 h2
          exact ⟨df, JValue.null, rfl, h1.symm, Or.inl rfl⟩
  · exact absurd h (by simp)

theorem restServicesCheck_forall2 (progsO : Option (List String)) :
    ∀ (svcs sf2 : Fields) (es : List (String × String)),
    restServicesCheck progsO svcs = Except.ok (sf2, es) →
    List.Forall₂ (fun q q2 : String × JValue => q2.1 = q.1 ∧
      ∃ df2 v, q.2 = JValue.obj df2 ∧
        q2.2 = JValue.obj (osetField df2 "supervisor" v) ∧
        (v = JValue.null ∨ ∃ s, ogetField df2 "supervisor" = some (JValue.str s) ∧
          pyStrip s ≠ "" ∧ v = JValue.str (pyStrip s))) svcs sf2 := by
  intro svcs
  induction svcs with
  | nil =>
    intro sf2 es h
    unfold restServicesCheck at h
    injection h with h
    injection h with h1 h2
    subst h1
    exact List.Forall₂.nil
  | cons p rest ih =>
    obtain ⟨k0, d0⟩ := p
    intro sf2 es h
    unfold restServicesCheck at h
    split at h
    · exact absurd h (by simp)
    · rename_i d1 e hstep
      split at h
      · exact absurd h (by simp)
      · rename_i rest1 es1 hrest
        injection h with h
        injection h with h1 h2
        subst h1
        obtain ⟨df2, x, hd, hd1, hx⟩ := serviceStep_shape progsO k0 d0 d1 e hstep
        exact List.Forall₂.cons ⟨rfl, df2, x, hd, hd1, hx⟩ (ih rest1 es1 hrest)

theorem restServicesCheck_sup (progsO : Option (List String)) :
    ∀ (svcs sf2 : Fields) (es : List (String × String)),
    restServicesCheck progsO svcs = Except.ok (sf2, es) →
    ∀ q ∈ sf2, ∃ v, jget q.2 "supervisor" = some v := by
  intro svcs
  induction svcs with
  | nil =>
    intro sf2 es h q hq
    unfold restServicesCheck at h
    injection h with h
    injection h with h1 h2
    subst h1
    simp at hq
  | cons p rest ih =>
    obtain ⟨k, d⟩ := p
    intro sf2 es h q hq
    unfold restServicesCheck at h
    split at h
    · exact absurd h (by simp)
    · rename_i d1 e hstep
      split at h
      · exact absurd h (by simp)
      · rename_i rest1 es1 hrest
        injection h with h
        injection h with h1 h2
        subst h1
        rcases List.mem_cons.mp hq with hq | hq
        · obtain ⟨df, x, hd, hd1, hx⟩ := serviceStep_shape progsO k d d1 e hstep
          refine ⟨x, ?_⟩
          rw [hq, hd1]
          simp [jget, ogetField_osetField_self]
        · exact ih rest1 es1 hrest q hq

theorem restSvcRun_shape (progsO : Option (List String)) (d2 d : JValue)
    (e errs : List (String × String))
    (h : restSvcRun progsO d2 e = Except.ok (d, errs)) :
    ∃ sf sf2 es,
      (jget d2 "services" = some (JValue.obj sf) ∨
        (jget d2 "services" = none ∧ sf = [])) ∧
      restServicesCheck progsO sf = Except.ok (sf2, es) ∧
      d = jset d2 "services" (JValue.obj sf2) ∧ errs = e ++ es := by
  unfold restSvcRun at h
  split at h
  · rename_i sf hsv
    split at h
    · exact absurd h (by simp)
    · rename_i sf2 e5 hchk
      injection h with h
      injection h with h1 h2
      exact ⟨sf, sf2, e5, Or.inl hsv, hchk, h1.symm, h2.symm⟩
  · rename_i hsv
    split at h
    · exact absurd h (by simp)
    · rename_i sf2 e5 hchk
      injection h with h
      injection h with h1 h2
      exact ⟨[], sf2, e5, Or.inr ⟨hsv, rfl⟩, hchk, h1.symm, h2.symm⟩
  · exact absurd h (by simp)

theorem restSvcCheck_shape (env : Env) (d2 d : JValue)
    (e errs : List (String × String))
    (h : restSvcCheck env d2 e = Except.ok (d, errs)) :
    ∃ progsO sf sf2 es,
      (jget d2 "services" = some (JValue.obj sf) ∨
        (jget d2 "services" = none ∧ sf = [])) ∧
      restServicesCheck progsO sf = Except.ok (sf2, es) ∧
      d = jset d2 "services" (JValue.obj sf2) ∧
      (∃ e0, errs = e0 ++ es) ∧
      (∀ progs2, env.supers = Except.ok progs2 → progsO = some progs2) := by
  unfold restSvcCheck at h
  split at h
  · rename_i progs hsup
    obtain ⟨sf, sf2, es, h1, h2, h3, h4⟩ := restSvcRun_shape _ _ _ _ _ h
    refine ⟨some progs, sf, sf2, es, h1, h2, h3, ⟨e, h4⟩, ?_⟩
    intro progs2 h2
    rw [hsup] at h2
    injection h2 with h2
    rw [h2]
  · rename_i m hsup
    obtain ⟨sf, sf2, es, h1, h2, h3, h4⟩ := restSvcRun_shape _ _ _ _ _ h
    refine ⟨none, sf, sf2, es, h1, h2, h3, ⟨_, h4⟩, ?_⟩
    intro progs2 h2
    rw [hsup] at h2
    exact absurd h2 (by simp)

theorem restPyCheck_shape (env : Env) (d1 d : JValue)
    (e1 errs : List (String × String))
    (h : restPyCheck env d1 e1 = Except.ok (d, errs)) :
    ∃ pf w rv progsO sf sf2 es,
      (jget d1 "python" = some (JValue.obj pf) ∨
        (jget d1 "python" = none ∧ pf = [])) ∧
      (w = JValue.null ∨
       ∃ s, ogetField pf "which" = some (JValue.str s) ∧ (pyStrip s) ≠ "" ∧
         w = JValue.str (pyStrip s)) ∧
      (rv = JValue.null ∨
       ∃ s, ogetField pf "requirements" = some (JValue.str s) ∧ (pyStrip s) ≠ "" ∧
         rv = JValue.str (pyStrip s)) ∧
      (jget (jset d1 "python" (JValue.obj (osetField (osetField pf "which" w)
          "requirements" rv))) "services" = some (JValue.obj sf) ∨
        (jget (jset d1 "python" (JValue.obj (osetField (osetField pf "which" w)
          "requirements" rv))) "services" = none ∧ sf = [])) ∧
      restServicesCheck progsO sf = Except.ok (sf2, es) ∧
      d = jset (jset d1 "python" (JValue.obj (osetField (osetField pf "which" w)
            "requirements" rv))) "services" (JValue.obj sf2) ∧
      (∃ e0, errs = e0 ++ es) ∧
      (∀ progs2, env.supers = Except.ok progs2 → progsO = some progs2) := by
  unfold restPyCheck at h
  split at h
  · exact absurd h (by simp)
  · rename_i pf hpf
    split at h
    · exact absurd h (by simp)
    · rename_i pf1 e2 hw
      split at h
      · exact absurd h (by simp)
      · rename_i pf2 e3 hrq
        obtain ⟨w, hpf1, hwv⟩ := pyFieldCheck_shape env pf "which" pf1 e2 hw
        obtain ⟨rv, hpf2, hrv⟩ := pyFieldCheck_shape env pf1 "requirements" pf2 e3 hrq
        subst hpf1
        rw [ogetField_osetField_ne pf "which" "requirements" w (by decide)] at hrv
        subst hpf2
        obtain ⟨progsO, sf, sf2, es, hsv, hchk, hd, herrs, hlink⟩ :=
          restSvcCheck_shape env _ _ _ _ h
        have hpfd : (match jget d1 "python" with
            | some (JValue.obj pf) => Except.ok pf
            | none => Except.ok ([] : Fields)
            | some _ => Except.error "AttributeError") = Except.ok pf := hpf
        refine ⟨pf, w, rv, progsO, sf, sf2, es, ?_, hwv, hrv, hsv, hchk, hd, herrs, hlink⟩
        split at hpfd
        · rename_i pf0 hp0
          injection hpfd with hpfd
          exact Or.inl (hpfd ▸ hp0)
        · rename_i hp0
          injection hpfd with hpfd
          exact Or.inr ⟨hp0, hpfd.symm⟩
        · exact absurd hpfd (by simp)

theorem rest_checks_shape (env : Env) (data d : JValue)
    (errs : List (String × String))
    (h : rest_checks env data = Except.ok (d, errs)) :
    ∃ df p pf w rv progsO sf sf2 es,
      data = JValue.obj df ∧
      ogetField df "path" = some (JValue.str p) ∧
      (ogetField df "python" = some (JValue.obj pf) ∨
        (ogetField df "python" = none ∧ pf = [])) ∧
      (w = JValue.null ∨
       ∃ s, ogetField pf "which" = some (JValue.str s) ∧ (pyStrip s) ≠ "" ∧
         w = JValue.str (pyStrip s)) ∧
      (rv = JValue.null ∨
       ∃ s, ogetField pf "requirements" = some (JValue.str s) ∧ (pyStrip s) ≠ "" ∧
         rv = JValue.str (pyStrip s)) ∧
      (ogetField df "services" = some (JValue.obj sf) ∨
        (ogetField df "services" = none ∧ sf = [])) ∧
      restServicesCheck progsO sf = Except.ok (sf2, es) ∧
      d = JValue.obj (osetField (osetField (osetField df "path" (JValue.str (pyStrip p)))
            "python" (JValue.obj (osetField (osetField pf "which" w) "requirements" rv)))
            "services" (JValue.obj sf2)) ∧
      (∃ e0, errs = e0 ++ es) ∧
      (∀ progs2, env.supers = Except.ok progs2 → progsO = some progs2) := by
  unfold rest_checks at h
  split at h
  · rename_i p hpath
    cases data with
    | obj df =>
      have hp : ogetField df "path" = some (JValue.str p) := hpath
      obtain ⟨pf, w, rv, progsO, sf, sf2, es, hpy, hwv, hrv, hsv, hchk, hd, herrs, hlink⟩ :=
        restPyCheck_shape env _ _ _ _ h
      simp only [jset, jget] at hpy hsv hd
      rw [ogetField_osetField_ne _ "path" "python" _ (by decide)] at hpy
      rw [ogetField_osetField_ne _ "python" "services" _ (by decide),
          ogetField_osetField_ne _ "path" "services" _ (by decide)] at hsv
      exact ⟨df, p, pf, w, rv, progsO, sf, sf2, es, rfl, hp, hpy, hwv, hrv, hsv, hchk, hd,
        herrs, hlink⟩
    | null => exact absurd hpath (by simp [jget])
    | bool b => exact absurd hpath (by simp [jget])
    | str s => exact absurd hpath (by simp [jget])
  · exact absurd h (by simp)
  · exact absurd h (by simp)

theorem portal_validation_eq_ok (env : Env) (st : MState) (name : String)
    (data d : JValue) (h1 : env.portalSchema data = none)
    (h2 : portal_checks env data = Except.ok (d, []))
    (h3 : env.persistOk = true) :
    portal_validation env st name data =
      Except.ok (Resp.ok,
        { conf := { portals := osetField st.conf.portals name d, rest := st.conf.rest },
          file := { portals := osetField st.conf.portals name d, rest := st.conf.rest } }) := by
  unfold portal_validation persistPortal
  rw [h1, h2]
  simp [h3]

theorem rest_validation_eq_ok (env : Env) (st : MState) (name : String)
    (data d : JValue) (h1 : env.restSchema data = none)
    (h2 : rest_checks env data = Except.ok (d, []))
    (h3 : env.persistOk = true) :
    rest_validation env st name data =
      Except.ok (Resp.ok,
        { conf := { portals := st.conf.portals, rest := osetField st.conf.rest name d },
          file := { portals := st.conf.portals, rest := osetField st.conf.rest name d } }) := by
  unfold rest_validation persistRest
  rw [h1, h2]
  simp [h3]

theorem portal_create_state (env : Env) (st : MState) (req : Req)
    (r : Resp) (st' : MState)
    (h : portal_create env st req = Except.ok (r, st')) (hr : r ≠ Resp.ok) :
    st' = st := by
  unfold portal_create at h
  split at h
  · injection h with h
    injection h with h1 h2
    exact h2.symm
  · injection h with h
    injection h with h1 h2
    exact h2.symm
  · injection h with h
    injection h with h1 h2
    exact h2.symm
  · split at h
    · injection h with h
      injection h with h1 h2
      exact h2.symm
    · exact portal_validation_state _ _ _ _ _ _ h hr

theorem portal_update_state (env : Env) (st : MState) (req : Req)
    (r : Resp) (st' : MState)
    (h : portal_update env st req = Except.ok (r, st')) (hr : r ≠ Resp.ok) :
    st' = st := by
  unfold portal_update at h
  split at h
  · injection h with h
    injection h with h1 h2
    exact h2.symm
  · injection h with h
    injection h with h1 h2
    exact h2.symm
  · injection h with h
    injection h with h1 h2
    exact h2.symm
  · split at h
    · injection h with h
      injection h with h1 h2
      exact h2.symm
    · exact portal_validation_state _ _ _ _ _ _ h hr

theorem portal_delete_state (env : Env) (st : MState) (req : Req)
    (r : Resp) (st' : MState)
    (h : portal_delete env st req = Except.ok (r, st')) (hr : r ≠ Resp.ok) :
    st' = st := by
  simp only [portal_delete] at h
  split at h
  · injection h with h
    injection h with h1 h2
    exact h2.symm
  · split at h
    · split at h
      · injection h with h
        injection h with h1 h2
        exact absurd h1.symm hr
      · injection h with h
        injection h with h1 h2
        exact h2.symm
    · injection h with h
      injection h with h1 h2
      exact h2.symm

theorem rest_create_state (env : Env) (st : MState) (req : Req)
    (r : Resp) (st' : MState)
    (h : rest_create env st req = Except.ok (r, st')) (hr : r ≠ Resp.ok) :
    st' = st := by
  unfold rest_create at h
  split at h
  · injection h with h
    injection h with h1 h2
    exact h2.symm
  · injection h with h
    injection h with h1 h2
    exact h2.symm
  · injection h with h
    injection h with h1 h2
    exact h2.symm
  · split at h
    · injection h with h
      injection h with h1 h2
      exact h2.symm
    · exact rest_validation_state _ _ _ _ _ _ h hr

theorem rest_update_state (env : Env) (st : MState) (req : Req)
    (r : Resp) (st' : MState)
    (h : rest_update env st req = Except.ok (r, st')) (hr : r ≠ Resp.ok) :
    st' = st := by
  unfold rest_update at h
  split at h
  · injection h with h
    injection h with h1 h2
    exact h2.symm
  · injection h with h
    injection h with h1 h2
    exact h2.symm
  · injection h with h
    injection h with h1 h2
    exact h2.symm
  · split at h
    · injection h with h
      injection h with h1 h2
      exact h2.symm
    · split at h
      · exact rest_validation_state _ _ _ _ _ _ h hr
      · exact rest_validation_state _ _ _ _ _ _ h hr
      · exact absurd h (by simp)

theorem portal_delete_absent (env : Env) (st : MState) (n : String)
    (ro : Option JValue) (h : ogetField st.conf.portals n = none) :
    portal_delete env st { name := some n, record := ro } =
      Except.ok (Resp.noRecord n "portal", st) := by
  simp [portal_delete, h]

theorem portal_delete_present (env : Env) (st : MState) (n : String)
    (ro : Option JValue) (h : (ogetField st.conf.portals n).isSome = true)
    (hper : env.persistOk = true) :
    portal_delete env st { name := some n, record := ro } =
      Except.ok (Resp.ok,
        { conf := { portals := odelField st.conf.portals n, rest := st.conf.rest },
          file := { portals := odelField st.conf.portals n, rest := st.conf.rest } }) := by
  simp [portal_delete, h, hper]

theorem rest_delete_absent (env : Env) (st : MState) (n : String)
    (ro : Option JValue) (h : ogetField st.conf.rest n = none) :
    rest_delete env st { name := some n, record := ro } =
      Except.ok (Resp.noRecord n "rest", st) := by
  simp [rest_delete, h]

theorem rest_delete_present (env : Env) (st : MState) (n : String)
    (ro : Option JValue) (h : (ogetField st.conf.rest n).isSome = true)
    (hper : env.persistOk = true) :
    rest_delete env st { name := some n, record := ro } =
      Except.ok (Resp.ok,
        { conf := { portals := st.conf.portals, rest := odelField st.conf.rest n },
          file := { portals := st.conf.portals, rest := odelField st.conf.rest n } }) := by
  simp [rest_delete, h, hper]

theorem rest_delete_state (env : Env) (st : MState) (req : Req)
    (r : Resp) (st' : MState)
    (h : rest_delete env st req = Except.ok (r, st')) (hr : r ≠ Resp.ok) :
    st' = st := by
  simp only [rest_delete] at h
  split at h
  · injection h with h
    injection h with h1 h2
    exact h2.symm
  · split at h
    · split at h
      · injection h with h
        injection h with h1 h2
        exact absurd h1.symm hr
      · injection h with h
        injection h with h1 h2
        exact h2.symm
    · injection h with h
      injection h with h1 h2
      exact h2.symm

theorem portal_create_ok (env : Env) (st : MState) (n : String) (rec : JValue)
    (st' : MState)
    (h : portal_create env st { name := some n, record := some rec } =
      Except.ok (Resp.ok, st')) :
    ogetField st.conf.portals n = none ∧
    portal_validation env st n rec = Except.ok (Resp.ok, st') := by
  replace h : (if (ogetField st.conf.portals n).isSome = true then
      Except.ok (Resp.duplicate n "portals", st)
    else portal_validation env st n rec) = Except.ok (Resp.ok, st') := h
  cases hog : ogetField st.conf.portals n with
  | some v =>
    rw [hog] at h
    simp at h
  | none =>
    rw [hog] at h
    simp only [Option.isSome_none, Bool.false_eq_true, if_false] at h
    exact ⟨rfl, h⟩

theorem rest_create_ok (env : Env) (st : MState) (n : String) (rec : JValue)
    (st' : MState)
    (h : rest_create env st { name := some n, record := some rec } =
      Except.ok (Resp.ok, st')) :
    ogetField st.conf.rest n = none ∧
    rest_validation env st n rec = Except.ok (Resp.ok, st') := by
  replace h : (if (ogetField st.conf.rest n).isSome = true then
      Except.ok (Resp.duplicate n "rest", st)
    else rest_validation env st n rec) = Except.ok (Resp.ok, st') := h
  cases hog : ogetField st.conf.rest n with
  | some v =>
    rw [hog] at h
    simp at h
  | none =>
    rw [hog] at h
    simp only [Option.isSome_none, Bool.false_eq_true, if_false] at h
    exact ⟨rfl, h⟩

theorem portal_update_eq (env : Env) (st : MState) (n : String) (rec old : JValue)
    (hog : ogetField st.conf.portals n = some old) :
    portal_update env st { name := some n, record := some rec } =
      portal_validation env st n (combine old rec) := by
  show (match ogetField st.conf.portals n with
    | none => Except.ok (Resp.noRecord n "portal", st)
    | some old => portal_validation env st n (combine old rec)) =
    portal_validation env st n (combine old rec)
  simp only [hog]

theorem portal_update_absent (env : Env) (st : MState) (n : String) (rec : JValue)
    (hog : ogetField st.conf.portals n = none) :
    portal_update env st { name := some n, record := some rec } =
      Except.ok (Resp.noRecord n "portal", st) := by
  show (match ogetField st.conf.portals n with
    | none => Except.ok (Resp.noRecord n "portal", st)
    | some old => portal_validation env st n (combine old rec)) = _
  simp only [hog]

theorem rest_update_eq (env : Env) (st : MState) (n : String) (rec old : JValue)
    (sf : Fields) (hog : ogetField st.conf.rest n = some old)
    (hsv : jget (combine old rec) "services" = some (JValue.obj sf)) :
    rest_update env st { name := some n, record := some rec } =
      rest_validation env st n (jset (combine old rec) "services"
        (JValue.obj (sf.filter (fun q => !(isNull q.2))))) := by
  show (match ogetField st.conf.rest n with
    | none => Except.ok (Resp.noRecord n "rest", st)
    | some old =>
      match jget (combine old rec) "services" with
      | some (JValue.obj sf) =>
        rest_validation env st n
          (jset (combine old rec) "services"
            (JValue.obj (sf.filter (fun q => !(isNull q.2)))))
      | none =>
        rest_validation env st n
          (jset (combine old rec) "services" (JValue.obj ([] : Fields)))
      | some _ => Except.error "AttributeError") = _
  simp only [hog, hsv]

theorem rest_update_absent (env : Env) (st : MState) (n : String) (rec : JValue)
    (hog : ogetField st.conf.rest n = none) :
    rest_update env st { name := some n, record := some rec } =
      Except.ok (Resp.noRecord n "rest", st) := by
  show (match ogetField st.conf.rest n with
    | none => Except.ok (Resp.noRecord n "rest", st)
    | some old =>
      match jget (combine old rec) "services" with
      | some (JValue.obj sf) =>
        rest_validation env st n
          (jset (combine old rec) "services"
            (JValue.obj (sf.filter (fun q => !(isNull q.2)))))
      | none =>
        rest_validation env st n
          (jset (combine old rec) "services" (JValue.obj ([] : Fields)))
      | some _ => Except.error "AttributeError") = _
  simp only [hog]

/-- C1: every create, update or delete call that returns a non-success
response — schema failure, path or file check failure, probe failure,
duplicate, not-found, missing field, or disk persist failure — leaves the
in-memory configuration snapshot and the persisted file unchanged, so a
subsequent read returns exactly what it returned before the failed call. -/
theorem c1_failed_writes_leave_state_unchanged (env : Env) (st : MState)
    (req : Req) (r : Resp) (st' : MState)
    (hop : portal_create env st req = Except.ok (r, st') ∨
           portal_update env st req = Except.ok (r, st') ∨
           portal_delete env st req = Except.ok (r, st') ∨
           rest_create env st req = Except.ok (r, st') ∨
           rest_update env st req = Except.ok (r, st') ∨
           rest_delete env st req = Except.ok (r, st'))
    (hr : r ≠ Resp.ok) :
    st'.conf = st.conf ∧ st'.file = st.file ∧
    portals_read st' = portals_read st ∧ rest_read st' = rest_read st := by
  have hst : st' = st := by
    rcases hop with h | h | h | h | h | h
    · exact portal_create_state _ _ _ _ _ h hr
    · exact portal_update_state _ _ _ _ _ h hr
    · exact portal_delete_state _ _ _ _ _ h hr
    · exact rest_create_state _ _ _ _ _ h hr
    · exact rest_update_state _ _ _ _ _ h hr
    · exact rest_delete_state _ _ _ _ _ h hr
  subst hst
  exact ⟨rfl, rfl, rfl, rfl⟩

theorem c1_witness :
    portal_create wEnv wSt0
        { name := some "x",
          record := some (JValue.obj [("path", JValue.str "/nope"),
            ("output", JValue.str "/home/u/out")]) } =
      Except.ok (Resp.dataFields [("path", "not a valid directory")], wSt0) ∧
    wSt0.conf = wSt0.conf ∧ wSt0.file = wSt0.file ∧
    portals_read wSt0 = portals_read wSt0 ∧ rest_read wSt0 = rest_read wSt0 :=
  ⟨by rfl,
   c1_failed_writes_leave_state_unchanged wEnv wSt0
     { name := some "x",
       record := some (JValue.obj [("path", JValue.str "/nope"),
         ("output", JValue.str "/home/u/out")]) }
     (Resp.dataFields [("path", "not a valid directory")]) wSt0
     (Or.inl (by rfl)) (by decide)⟩

/-- C2 counterexample: a successful portal create with path " ~/app " stores
the trimmed original "~/app" — still containing the tilde, and differing from
the expanded absolute form "/home/u/app" — so stored path values are not
tilde-expanded or resolved to absolute paths as the claim states. -/
theorem c2_counterexample :
    portal_create wEnv wSt0
        { name := some "app",
          record := some (JValue.obj [("path", JValue.str " ~/app "),
            ("output", JValue.str "/home/u/out")]) } =
      Except.ok (Resp.ok, wStAppStored) ∧
    ogetField (portals_read wStAppStored) "app" = some wPortalRecStored ∧
    jget wPortalRecStored "path" = some (JValue.str "~/app") ∧
    hasTilde "~/app" = true ∧
    wEnv.expanduser "~/app" = "/home/u/app" ∧
    ("~/app" : String) ≠ "/home/u/app" :=
  ⟨by rfl, by rfl, by rfl, by rfl, by rfl, by decide⟩

/-- C2 (amended): for every create that succeeds, the named entry appears in
a subsequent read for that entity kind; its stored path-like fields hold the
trimmed input — surrounding whitespace removed, with tilde-expansion and
absolute-path resolution applied only to the existence probe, not to the
stored value — and blank or absent optional string fields are stored as
null rather than dropped. -/
theorem c2_create_read_back_trimmed :
    (∀ (env : Env) (st : MState) (n : String) (rec : JValue) (st' : MState),
      portal_create env st { name := some n, record := some rec } =
          Except.ok (Resp.ok, st') →
      ∃ df p o nv,
        rec = JValue.obj df ∧
        ogetField df "path" = some (JValue.str p) ∧
        ogetField df "output" = some (JValue.str o) ∧
        ∃ stored nd, ogetField (portals_read st') n = some stored ∧
          jget stored "path" = some (JValue.str (pyStrip p)) ∧
          jget stored "output" = some (JValue.str (pyStrip o)) ∧
          jget stored "node" = some nd ∧ jget nd "nvm" = some nv ∧
          (nv = JValue.null ∨
            ∃ s nf, ogetField df "node" = some (JValue.obj nf) ∧
              ogetField nf "nvm" = some (JValue.str s) ∧ pyStrip s ≠ "" ∧
              nv = JValue.str (pyStrip s))) ∧
    (∀ (env : Env) (st : MState) (n : String) (rec : JValue) (st' : MState),
      rest_create env st { name := some n, record := some rec } =
          Except.ok (Resp.ok, st') →
      ∃ df p w rv,
        rec = JValue.obj df ∧
        ogetField df "path" = some (JValue.str p) ∧
        ∃ stored py, ogetField (rest_read st') n = some stored ∧
          jget stored "path" = some (JValue.str (pyStrip p)) ∧
          jget stored "python" = some py ∧
          jget py "which" = some w ∧ jget py "requirements" = some rv ∧
          (w = JValue.null ∨ ∃ s, pyStrip s ≠ "" ∧ w = JValue.str (pyStrip s)) ∧
          (rv = JValue.null ∨ ∃ s, pyStrip s ≠ "" ∧ rv = JValue.str (pyStrip s))) := by
  constructor
  · intro env st n rec st' h
    obtain ⟨hnone, hval⟩ := portal_create_ok env st n rec st' h
    obtain ⟨hsch, hper, d, hchk, hport, hrest, hfile⟩ :=
      portal_validation_ok env st n rec st' hval
    obtain ⟨df, p, o, nf, nv, hdf, hp, ho, hnode, hd, hnv⟩ :=
      portal_checks_shape env rec d [] hchk
    refine ⟨df, p, o, nv, hdf, hp, ho, d,
      JValue.obj (osetField nf "nvm" nv), ?_, ?_, ?_, ?_, ?_, ?_⟩
    · show ogetField st'.conf.portals n = some d
      rw [hport]
      exact ogetField_osetField_self _ _ _
    · rw [hd]
      show ogetField _ "path" = _
      rw [ogetField_osetField_ne _ "node" "path" _ (by decide),
        ogetField_osetField_ne _ "output" "path" _ (by decide),
        ogetField_osetField_self]
    · rw [hd]
      show ogetField _ "output" = _
      rw [ogetField_osetField_ne _ "node" "output" _ (by decide),
        ogetField_osetField_self]
    · rw [hd]
      show ogetField _ "node" = _
      rw [ogetField_osetField_self]
    · show ogetField _ "nvm" = _
      rw [ogetField_osetField_self]
    · rcases hnv with h1 | ⟨s, hs1, hs2, hs3⟩
      · exact Or.inl h1
      · rcases hnode with hn | ⟨hn, rfl⟩
        · exact Or.inr ⟨s, nf, hn, hs1, hs2, hs3⟩
        · simp [ogetField] at hs1
  · intro env st n rec st' h
    obtain ⟨hnone, hval⟩ := rest_create_ok env st n rec st' h
    obtain ⟨hsch, hper, d, hchk, hrest, hport, hfile⟩ :=
      rest_validation_ok env st n rec st' hval
    obtain ⟨df, p, pf, w, rv, progsO, sf, sf2, es, hdf, hp, hpy, hwv, hrv, hsv, hchk2, hd,
      herrs2, hlink⟩ := rest_checks_shape env rec d [] hchk
    refine ⟨df, p, w, rv, hdf, hp, d,
      JValue.obj (osetField (osetField pf "which" w) "requirements" rv),
      ?_, ?_, ?_, ?_, ?_, ?_, ?_⟩
    · show ogetField st'.conf.rest n = some d
      rw [hrest]
      exact ogetField_osetField_self _ _ _
    · rw [hd]
      show ogetField _ "path" = _
      rw [ogetField_osetField_ne _ "services" "path" _ (by decide),
        ogetField_osetField_ne _ "python" "path" _ (by decide),
        ogetField_osetField_self]
    · rw [hd]
      show ogetField _ "python" = _
      rw [ogetField_osetField_ne _ "services" "python" _ (by decide),
        ogetField_osetField_self]
    · show ogetField _ "which" = _
      rw [ogetField_osetField_ne _ "requirements" "which" _ (by decide),
        ogetField_osetField_self]
    · show ogetField _ "requirements" = _
      rw [ogetField_osetField_self]
    · rcases hwv with h1 | ⟨s, hs1, hs2, hs3⟩
      · exact Or.inl h1
      · exact Or.inr ⟨s, hs2, hs3⟩
    · rcases hrv with h1 | ⟨s, hs1, hs2, hs3⟩
      · exact Or.inl h1
      · exact Or.inr ⟨s, hs2, hs3⟩

theorem c2_witness :
    portal_create wEnv wSt0
        { name := some "app",
          record := some (JValue.obj [("path", JValue.str " ~/app "),
            ("output", JValue.str "/home/u/out")]) } =
      Except.ok (Resp.ok, wStAppStored) ∧
    (∃ df p o nv,
      (JValue.obj [("path", JValue.str " ~/app "),
        ("output", JValue.str "/home/u/out")]) = JValue.obj df ∧
      ogetField df "path" = some (JValue.str p) ∧
      ogetField df "output" = some (JValue.str o) ∧
      ∃ stored nd, ogetField (portals_read wStAppStored) "app" = some stored ∧
        jget stored "path" = some (JValue.str (pyStrip p)) ∧
        jget stored "output" = some (JValue.str (pyStrip o)) ∧
        jget stored "node" = some nd ∧ jget nd "nvm" = some nv ∧
        (nv = JValue.null ∨
          ∃ s nf, ogetField df "node" = some (JValue.obj nf) ∧
            ogetField nf "nvm" = some (JValue.str s) ∧ pyStrip s ≠ "" ∧
            nv = JValue.str (pyStrip s))) :=
  ⟨by rfl,
   c2_create_read_back_trimmed.1 wEnv wSt0 "app"
     (JValue.obj [("path", JValue.str " ~/app "), ("output", JValue.str "/home/u/out")])
     wStAppStored (by rfl)⟩

/-- C3 counterexample: updating portal "app" with `node.nvm` set to the
empty string persists a record that still carries the `nvm` key — as null —
inside a still-present `node` block, where the claim says the `nvm` key and
the then-empty `node` block are absent; and a successful portal create whose
record holds `git.checkout = false` and `git.submodule = false` persists
those false git flags exactly as given, where the claim says a false git
flag never appears in the stored record. -/
theorem c3_counterexample :
    portal_update wEnv wStApp
        { name := some "app",
          record := some (JValue.obj [("node", JValue.obj [("nvm", JValue.str "")])]) } =
      Except.ok (Resp.ok, wStAppNvmNull) ∧
    ogetField (portals_read wStAppNvmNull) "app" = some wPortalRecNvmNull ∧
    jget wPortalRecNvmNull "node" = some (JValue.obj [("nvm", JValue.null)]) ∧
    jget (JValue.obj [("nvm", JValue.null)]) "nvm" = some JValue.null ∧
    portal_create wEnv wSt0 { name := some "app2", record := some wPortalRecGit } =
      Except.ok (Resp.ok, wStAppGit) ∧
    ogetField (portals_read wStAppGit) "app2" = some wPortalRecGitStored ∧
    jget wPortalRecGitStored "git" =
      some (JValue.obj [("checkout", JValue.bool false),
        ("submodule", JValue.bool false)]) := by
  have hm : combine wPortalRec (JValue.obj [("node", JValue.obj [("nvm", JValue.str "")])]) =
      JValue.obj [("path", JValue.str "/home/u/app"), ("output", JValue.str "/home/u/out"),
        ("node", JValue.obj [("nvm", JValue.str "")])] := by
    simp [wPortalRec, combine, combineFields_cons, combineFields_nil, mergeVal,
      ogetField, osetField]
  refine ⟨?_, by rfl, by rfl, by rfl, by rfl, by rfl, by rfl⟩
  rw [portal_update_eq wEnv wStApp "app" _ wPortalRec (by rfl), hm]
  rfl

/-- C3 (amended): a record successfully persisted by create or update keeps
optional fields rather than dropping them: when the supplied `node.nvm` is
absent, null, or blank after trimming, the persisted portal record carries
`node.nvm` explicitly set to null — the `nvm` key present as null inside a
still-present `node` block, not absent as the claim states; and every field
other than the normalized ones (`path`, `output`, `node` for portals;
`path`, `python`, `services` for rest records) — in particular a `git` block
with false flags — is persisted exactly as supplied, never dropped. -/
theorem c3_blank_nvm_persisted_as_null :
    (∀ (env : Env) (st : MState) (n : String) (data : JValue) (st' : MState),
      portal_validation env st n data = Except.ok (Resp.ok, st') →
      (∀ s nf, jget data "node" = some (JValue.obj nf) →
        ogetField nf "nvm" = some (JValue.str s) → pyStrip s = "") →
      ∃ stored nd, ogetField st'.conf.portals n = some stored ∧
        jget stored "node" = some nd ∧ jget nd "nvm" = some JValue.null) ∧
    (∀ (env : Env) (st : MState) (n : String) (df : Fields) (st' : MState),
      portal_validation env st n (JValue.obj df) = Except.ok (Resp.ok, st') →
      ∃ stored, ogetField st'.conf.portals n = some stored ∧
        ∀ k, k ≠ "path" → k ≠ "output" → k ≠ "node" →
          jget stored k = ogetField df k) ∧
    (∀ (env : Env) (st : MState) (n : String) (df : Fields) (st' : MState),
      rest_validation env st n (JValue.obj df) = Except.ok (Resp.ok, st') →
      ∃ stored, ogetField st'.conf.rest n = some stored ∧
        ∀ k, k ≠ "path" → k ≠ "python" → k ≠ "services" →
          jget stored k = ogetField df k) := by
  refine ⟨?_, ?_, ?_⟩
  · intro env st n data st' h hblank
    obtain ⟨hsch, hper, d, hchk, hport, hrest, hfile⟩ :=
      portal_validation_ok env st n data st' h
    obtain ⟨df, p, o, nf, nv, hdf, hp, ho, hnode, hd, hnv⟩ :=
      portal_checks_shape env data d [] hchk
    have hnvnull : nv = JValue.null := by
      rcases hnv with h1 | ⟨s, hs1, hs2, hs3⟩
      · exact h1
      · rcases hnode with hn | ⟨hn, rfl⟩
        · exact absurd (hblank s nf (by rw [hdf]; exact hn) hs1) hs2
        · simp [ogetField] at hs1
    subst hnvnull
    refine ⟨d, JValue.obj (osetField nf "nvm" JValue.null), ?_, ?_, ?_⟩
    · rw [hport]
      exact ogetField_osetField_self _ _ _
    · rw [hd]
      show ogetField _ "node" = _
      rw [ogetField_osetField_self]
    · show ogetField _ "nvm" = _
      rw [ogetField_osetField_self]
  · intro env st n df st' h
    obtain ⟨hsch, hper, d, hchk, hport, hrest, hfile⟩ :=
      portal_validation_ok env st n (JValue.obj df) st' h
    obtain ⟨df', p, o, nf, nv, hdf, hp, ho, hnode, hd, hnv⟩ :=
      portal_checks_shape env (JValue.obj df) d [] hchk
    injection hdf with hdf
    subst hdf
    refine ⟨d, ?_, ?_⟩
    · rw [hport]
      exact ogetField_osetField_self _ _ _
    · intro k hk1 hk2 hk3
      rw [hd]
      show ogetField _ k = _
      rw [ogetField_osetField_ne _ "node" k _ hk3,
        ogetField_osetField_ne _ "output" k _ hk2,
        ogetField_osetField_ne _ "path" k _ hk1]
  · intro env st n df st' h
    obtain ⟨hsch, hper, d, hchk, hrest, hport, hfile⟩ :=
      rest_validation_ok env st n (JValue.obj df) st' h
    obtain ⟨df', p, pf, w, rv, progsO, sf, sf2, es, hdf, hp, hpy, hwv, hrv, hsv,
      hchk2, hd, herrs, hlink⟩ := rest_checks_shape env (JValue.obj df) d [] hchk
    injection hdf with hdf
    subst hdf
    refine ⟨d, ?_, ?_⟩
    · rw [hrest]
      exact ogetField_osetField_self _ _ _
    · intro k hk1 hk2 hk3
      rw [hd]
      show ogetField _ k = _
      rw [ogetField_osetField_ne _ "services" k _ hk3,
        ogetField_osetField_ne _ "python" k _ hk2,
        ogetField_osetField_ne _ "path" k _ hk1]

theorem c3_witness :
    (portal_validation wEnv wStApp "app"
        (JValue.obj [("path", JValue.str "/home/u/app"), ("output", JValue.str "/home/u/out"),
          ("node", JValue.obj [("nvm", JValue.str "")])]) =
      Except.ok (Resp.ok, wStAppNvmNull) ∧
    ∃ stored nd, ogetField wStAppNvmNull.conf.portals "app" = some stored ∧
      jget stored "node" = some nd ∧ jget nd "nvm" = some JValue.null) ∧
    (portal_validation wEnv wSt0 "app2" wPortalRecGit =
      Except.ok (Resp.ok, wStAppGit) ∧
    ∃ stored, ogetField wStAppGit.conf.portals "app2" = some stored ∧
      ∀ k, k ≠ "path" → k ≠ "output" → k ≠ "node" →
        jget stored k = ogetField [("path", JValue.str "/home/u/app"),
          ("output", JValue.str "/home/u/out"),
          ("git", JValue.obj [("checkout", JValue.bool false),
            ("submodule", JValue.bool false)])] k) :=
  ⟨⟨by rfl,
    c3_blank_nvm_persisted_as_null.1 wEnv wStApp "app"
      (JValue.obj [("path", JValue.str "/home/u/app"), ("output", JValue.str "/home/u/out"),
        ("node", JValue.obj [("nvm", JValue.str "")])]) wStAppNvmNull (by rfl)
      (by
        intro s nf hn hs
        simp only [jget, ogetField] at hn
        simp only [show (("path" : String) = "node") = False from by decide,
          show (("output" : String) = "node") = False from by decide] at hn
        simp at hn
        subst hn
        simp [ogetField] at hs
        subst hs
        rfl)⟩,
   by rfl,
   c3_blank_nvm_persisted_as_null.2.1 wEnv wSt0 "app2"
     [("path", JValue.str "/home/u/app"), ("output", JValue.str "/home/u/out"),
       ("git", JValue.obj [("checkout", JValue.bool false),
         ("submodule", JValue.bool false)])] wStAppGit (by rfl)⟩

/-- C5: update on an existing record passes to validation exactly the deep
merge of the partial record onto the stored one — every key supplied in the
partial record overrides the stored value for that key, recursively, via
`mergeVal` — with, for rest updates, every service whose merged value is
null removed before validation; update on an absent name fails with the
not-found error. -/
theorem c5_update_merge_semantics :
    (∀ (env : Env) (st : MState) (n : String) (rec old : JValue),
      ogetField st.conf.portals n = some old →
      portal_update env st { name := some n, record := some rec } =
        portal_validation env st n (combine old rec)) ∧
    (∀ (env : Env) (st : MState) (n : String) (rec : JValue),
      ogetField st.conf.portals n = none →
      portal_update env st { name := some n, record := some rec } =
        Except.ok (Resp.noRecord n "portal", st)) ∧
    (∀ (env : Env) (st : MState) (n : String) (rec old : JValue) (sf : Fields),
      ogetField st.conf.rest n = some old →
      jget (combine old rec) "services" = some (JValue.obj sf) →
      rest_update env st { name := some n, record := some rec } =
        rest_validation env st n (jset (combine old rec) "services"
          (JValue.obj (sf.filter (fun q => !(isNull q.2)))))) ∧
    (∀ (env : Env) (st : MState) (n : String) (rec : JValue),
      ogetField st.conf.rest n = none →
      rest_update env st { name := some n, record := some rec } =
        Except.ok (Resp.noRecord n "rest", st)) ∧
    (∀ (Rf Pf : Fields) (k : String) (v : JValue), (Pf.map Prod.fst).Nodup →
      ogetField Pf k = some v →
      jget (combine (JValue.obj Rf) (JValue.obj Pf)) k =
        some (mergeVal (ogetField Rf k) v)) ∧
    (∀ (Rf Pf : Fields) (k : String), (Pf.map Prod.fst).Nodup →
      ogetField Pf k = none →
      jget (combine (JValue.obj Rf) (JValue.obj Pf)) k = ogetField Rf k) ∧
    (∀ (Rsf Psf : Fields) (k : String),
      (Rsf.map Prod.fst).Nodup → (Psf.map Prod.fst).Nodup →
      ogetField Psf k = some JValue.null →
      ogetField ((combineFields Rsf Psf).filter (fun q => !(isNull q.2))) k = none) := by
  refine ⟨fun env st n rec old h => portal_update_eq env st n rec old h,
    fun env st n rec h => portal_update_absent env st n rec h,
    fun env st n rec old sf h hsv => rest_update_eq env st n rec old sf h hsv,
    fun env st n rec h => rest_update_absent env st n rec h,
    ?_, ?_, ?_⟩
  · intro Rf Pf k v hnd hget
    show ogetField (combineFields Rf Pf) k = _
    rw [combineFields_get Pf Rf k hnd, hget]
  · intro Rf Pf k hnd hget
    show ogetField (combineFields Rf Pf) k = _
    rw [combineFields_get Pf Rf k hnd, hget]
  · intro Rsf Psf k hndR hndP hget
    have hmv : mergeVal (ogetField Rsf k) JValue.null = JValue.null := by
      cases hx : ogetField Rsf k with
      | none => rfl
      | some w => cases w <;> rfl
    have hcomb : ogetField (combineFields Rsf Psf) k = some JValue.null := by
      rw [combineFields_get Psf Rsf k hndP, hget]
      show some (mergeVal (ogetField Rsf k) JValue.null) = some JValue.null
      rw [hmv]
    exact ogetField_filter_null_none _ k (combineFields_nodup Psf Rsf hndR) hcomb

theorem c5_witness :
    ogetField wStApp.conf.portals "app" = some wPortalRec ∧
    portal_update wEnv wStApp
        { name := some "app",
          record := some (JValue.obj [("node", JValue.obj [("nvm", JValue.str "")])]) } =
      portal_validation wEnv wStApp "app"
        (combine wPortalRec (JValue.obj [("node", JValue.obj [("nvm", JValue.str "")])])) ∧
    ogetField ((combineFields [("api", JValue.obj []), ("db", JValue.obj [])]
      [("db", JValue.null)]).filter (fun q => !(isNull q.2))) "db" = none :=
  ⟨rfl,
   c5_update_merge_semantics.1 wEnv wStApp "app"
     (JValue.obj [("node", JValue.obj [("nvm", JValue.str "")])]) wPortalRec rfl,
   (c5_update_merge_semantics.2.2.2.2.2.2
     [("api", JValue.obj []), ("db", JValue.obj [])] [("db", JValue.null)] "db"
     (by simp) (by simp) rfl)⟩

theorem serviceStep_obj (progsO : Option (List String)) (k : String) (df : Fields) :
    serviceStep progsO k (JValue.obj df) =
      (match
        (match ogetField df "supervisor" with
         | some v =>
           if jtruthy v = true then
             match v with
             | JValue.str s => Except.ok (if pyStrip s = "" then none else some (pyStrip s))
             | _ => Except.error "AttributeError"
           else Except.ok (none : Option String)
         | none => Except.ok (none : Option String)) with
      | Except.error m => Except.error m
      | Except.ok supO =>
        match progsO with
        | none => Except.error "UnboundLocalError"
        | some progs =>
          match supO with
          | some t =>
            Except.ok (JValue.obj (osetField df "supervisor" (JValue.str t)),
              if t ∈ progs then []
              else [("record.services." ++ k ++ ".supervisor",
                "not a valid supervisor program")])
          | none =>
            Except.ok (JValue.obj (osetField df "supervisor" JValue.null),
              if k ∈ progs then []
              else [("record.services." ++ k, "not a valid supervisor program")])) := rfl

theorem supRef_obj (k : String) (df : Fields) :
    supRef k (JValue.obj df) =
      (match ogetField df "supervisor" with
       | some (JValue.str s) => if pyStrip s = "" then k else pyStrip s
       | _ => k) := rfl

theorem serviceStep_explicit_bad (progs : List String) (k : String) (df : Fields)
    (s : String) (hsv : ogetField df "supervisor" = some (JValue.str s))
    (hs : pyStrip s ≠ "") (hbad : pyStrip s ∉ progs) :
    serviceStep (some progs) k (JValue.obj df) =
      Except.ok (JValue.obj (osetField df "supervisor" (JValue.str (pyStrip s))),
        [("record.services." ++ k ++ ".supervisor", "not a valid supervisor program")]) := by
  have hs0 : s ≠ "" := by
    intro he
    exact hs (by rw [he]; rfl)
  rw [serviceStep_obj, hsv]
  simp [jtruthy, hs0, hs, hbad]

theorem serviceStep_implied_bad (progs : List String) (k : String) (df : Fields)
    (hsv : ogetField df "supervisor" = none ∨
      ogetField df "supervisor" = some JValue.null ∨
      ∃ s, ogetField df "supervisor" = some (JValue.str s) ∧ pyStrip s = "")
    (hbad : k ∉ progs) :
    serviceStep (some progs) k (JValue.obj df) =
      Except.ok (JValue.obj (osetField df "supervisor" JValue.null),
        [("record.services." ++ k, "not a valid supervisor program")]) := by
  rw [serviceStep_obj]
  rcases hsv with h | h | ⟨s, h, hps⟩
  · rw [h]
    simp [hbad]
  · rw [h]
    simp [jtruthy, hbad]
  · rw [h]
    by_cases he : s = ""
    · subst he
      simp [jtruthy, hbad]
    · simp [jtruthy, he, hps, hbad]

theorem serviceStep_ok_ref (progs : List String) (k : String) (d d1 : JValue)
    (h : serviceStep (some progs) k d = Except.ok (d1, [])) :
    supRef k d ∈ progs := by
  cases d with
  | null => exact absurd h (by rw [show serviceStep (some progs) k JValue.null =
      Except.error "AttributeError" from rfl]; simp)
  | bool b => exact absurd h (by rw [show serviceStep (some progs) k (JValue.bool b) =
      Except.error "AttributeError" from rfl]; simp)
  | str s => exact absurd h (by rw [show serviceStep (some progs) k (JValue.str s) =
      Except.error "AttributeError" from rfl]; simp)
  | obj df =>
    rw [serviceStep_obj] at h
    rw [supRef_obj]
    cases hsv : ogetField df "supervisor" with
    | none =>
      rw [hsv] at h
      by_cases hk : k ∈ progs
      · exact hk
      · simp [hk] at h
    | some v =>
      rw [hsv] at h
      cases v with
      | null =>
        by_cases hk : k ∈ progs
        · exact hk
        · simp [jtruthy, hk] at h
      | bool b =>
        cases b with
        | false =>
          by_cases hk : k ∈ progs
          · exact hk
          · simp [jtruthy, hk] at h
        | true => simp [jtruthy] at h
      | obj l =>
        cases l with
        | nil =>
          by_cases hk : k ∈ progs
          · exact hk
          · simp [jtruthy, hk] at h
        | cons q t => simp [jtruthy] at h
      | str s =>
        by_cases he : s = ""
        · subst he
          by_cases hk : k ∈ progs
          · show (if pyStrip "" = "" then k else pyStrip "") ∈ progs
            rw [if_pos (show pyStrip "" = "" from rfl)]
            exact hk
          · simp [jtruthy, hk] at h
        · show (if pyStrip s = "" then k else pyStrip s) ∈ progs
          by_cases hps : pyStrip s = ""
          · rw [if_pos hps]
            by_cases hk : k ∈ progs
            · exact hk
            · simp [jtruthy, he, hps, hk] at h
          · rw [if_neg hps]
            by_cases hm : pyStrip s ∈ progs
            · exact hm
            · simp [jtruthy, he, hps, hm] at h

theorem restServicesCheck_mem (progsO : Option (List String)) :
    ∀ (svcs sf2 : Fields) (es : List (String × String)) (k : String) (d : JValue),
    restServicesCheck progsO svcs = Except.ok (sf2, es) → (k, d) ∈ svcs →
    ∃ d1 e, serviceStep progsO k d = Except.ok (d1, e) ∧ ∀ x ∈ e, x ∈ es := by
  intro svcs
  induction svcs with
  | nil =>
    intro sf2 es k d h hmem
    simp at hmem
  | cons p rest ih =>
    obtain ⟨k0, d0⟩ := p
    intro sf2 es k d h hmem
    unfold restServicesCheck at h
    split at h
    · exact absurd h (by simp)
    · rename_i d1 e hstep
      split at h
      · exact absurd h (by simp)
      · rename_i rest1 es1 hrest
        injection h with h
        injection h with h1 h2
        subst h2
        rcases List.mem_cons.mp hmem with hq | hq
        · obtain ⟨hk, hd⟩ := Prod.mk.inj hq
          subst hk
          subst hd
          exact ⟨d1, e, hstep, fun x hx => List.mem_append_left _ hx⟩
        · obtain ⟨d1', e', hstep', hsub⟩ := ih rest1 es1 k d hrest hq
          exact ⟨d1', e', hstep', fun x hx => List.mem_append_right _ (hsub x hx)⟩

theorem restServicesCheck_all_ok (progsO : Option (List String)) :
    ∀ (svcs sf2 : Fields),
    restServicesCheck progsO svcs = Except.ok (sf2, []) → ∀ (k : String) (d : JValue),
    (k, d) ∈ svcs → ∃ d1, serviceStep progsO k d = Except.ok (d1, []) := by
  intro svcs sf2 h k d hmem
  obtain ⟨d1, e, hstep, hsub⟩ := restServicesCheck_mem progsO svcs sf2 [] k d h hmem
  cases e with
  | nil => exact ⟨d1, hstep⟩
  | cons x t => exact absurd (hsub x (List.mem_cons_self x t)) (by simp)

theorem rest_validation_eq_dataFields (env : Env) (st : MState) (n : String)
    (data d : JValue) (errs : List (String × String))
    (hsch : env.restSchema data = none)
    (hchk : rest_checks env data = Except.ok (d, errs)) (hne : errs ≠ []) :
    rest_validation env st n data = Except.ok (Resp.dataFields errs, st) := by
  unfold rest_validation
  rw [hsch, hchk]
  simp [hne]

theorem rest_create_eq (env : Env) (st : MState) (n : String) (rec : JValue)
    (hfree : ogetField st.conf.rest n = none) :
    rest_create env st { name := some n, record := some rec } =
      rest_validation env st n rec := by
  show (if (ogetField st.conf.rest n).isSome = true then
      Except.ok (Resp.duplicate n "rest", st)
    else rest_validation env st n rec) = _
  rw [hfree]
  simp

/-- C7: each service's supervisor reference — the trimmed explicit
`supervisor` field when non-blank, otherwise the service name itself — must
be among the program names the process supervisor reports at validation
time: a successful write implies every reference is reported, and a write
holding a service whose reference is not reported fails with a
DataFieldsError citing that service's field path while the entry stays
absent from a subsequent read. -/
theorem c7_unknown_supervisor_rejected :
    (∀ (env : Env) (st : MState) (n : String) (data : JValue) (st' : MState)
       (progs : List String) (df sf : Fields) (k : String) (d : JValue),
      rest_validation env st n data = Except.ok (Resp.ok, st') →
      env.supers = Except.ok progs →
      data = JValue.obj df →
      ogetField df "services" = some (JValue.obj sf) →
      (k, d) ∈ sf → supRef k d ∈ progs) ∧
    (∀ (env : Env) (st : MState) (n : String) (df sf dsvc : Fields) (k s : String)
       (dres : JValue) (errs : List (String × String)) (progs : List String),
      env.supers = Except.ok progs →
      env.restSchema (JValue.obj df) = none →
      rest_checks env (JValue.obj df) = Except.ok (dres, errs) →
      ogetField df "services" = some (JValue.obj sf) →
      (k, JValue.obj dsvc) ∈ sf →
      ogetField dsvc "supervisor" = some (JValue.str s) →
      pyStrip s ≠ "" → pyStrip s ∉ progs →
      ogetField st.conf.rest n = none →
      ("record.services." ++ k ++ ".supervisor", "not a valid supervisor program") ∈ errs ∧
      rest_create env st { name := some n, record := some (JValue.obj df) } =
        Except.ok (Resp.dataFields errs, st) ∧
      ogetField (rest_read st) n = none) ∧
    (∀ (env : Env) (st : MState) (n : String) (df sf dsvc : Fields) (k : String)
       (dres : JValue) (errs : List (String × String)) (progs : List String),
      env.supers = Except.ok progs →
      env.restSchema (JValue.obj df) = none →
      rest_checks env (JValue.obj df) = Except.ok (dres, errs) →
      ogetField df "services" = some (JValue.obj sf) →
      (k, JValue.obj dsvc) ∈ sf →
      (ogetField dsvc "supervisor" = none ∨
        ogetField dsvc "supervisor" = some JValue.null ∨
        ∃ s, ogetField dsvc "supervisor" = some (JValue.str s) ∧ pyStrip s = "") →
      k ∉ progs →
      ogetField st.conf.rest n = none →
      ("record.services." ++ k, "not a valid supervisor program") ∈ errs ∧
      rest_create env st { name := some n, record := some (JValue.obj df) } =
        Except.ok (Resp.dataFields errs, st) ∧
      ogetField (rest_read st) n = none) := by
  refine ⟨?_, ?_, ?_⟩
  · intro env st n data st' progs df sf k d h hsup hdata hsvc hmem
    obtain ⟨hsch, hper, d0, hchk, hrest, hport, hfile⟩ :=
      rest_validation_ok env st n data st' h
    obtain ⟨df', p, pf, w, rv, progsO, sf', sf2, es, hdf, hp, hpy, hwv, hrv, hsv,
      hchk2, hd, herrs, hlink⟩ := rest_checks_shape env data d0 [] hchk
    rw [hdata] at hdf
    injection hdf with hdf
    subst hdf
    have hsf : sf' = sf := by
      rcases hsv with hh | ⟨hh, _⟩
      · rw [hsvc] at hh
        injection hh with hh
        injection hh with hh
        exact hh.symm
      · rw [hsvc] at hh
        exact absurd hh (by simp)
    rw [hsf] at hchk2
    obtain ⟨e0, h0⟩ := herrs
    have hes : es = [] := by
      cases (List.append_eq_nil.mp h0.symm) with
      | intro h1 h2 => exact h2
    rw [hlink progs hsup, hes] at hchk2
    obtain ⟨d1, hstep⟩ := restServicesCheck_all_ok (some progs) sf sf2 hchk2 k d hmem
    exact serviceStep_ok_ref progs k d d1 hstep
  · intro env st n df sf dsvc k s dres errs progs hsup hsch hchk hsvc hmem hsup2 hs hbad hfree
    obtain ⟨df', p, pf, w, rv, progsO, sf', sf2, es, hdf, hp, hpy, hwv, hrv, hsv,
      hchk2, hd, herrs, hlink⟩ := rest_checks_shape env _ dres errs hchk
    injection hdf with hdf
    subst hdf
    have hsf : sf' = sf := by
      rcases hsv with hh | ⟨hh, _⟩
      · rw [hsvc] at hh
        injection hh with hh
        injection hh with hh
        exact hh.symm
      · rw [hsvc] at hh
        exact absurd hh (by simp)
    rw [hsf] at hchk2
    rw [hlink progs hsup] at hchk2
    obtain ⟨d1, e, hstep, hsub⟩ :=
      restServicesCheck_mem (some progs) sf sf2 es k (JValue.obj dsvc) hchk2 hmem
    rw [serviceStep_explicit_bad progs k dsvc s hsup2 hs hbad] at hstep
    injection hstep with hstep
    injection hstep with h1 h2
    obtain ⟨e0, h0⟩ := herrs
    have hmem2 : ("record.services." ++ k ++ ".supervisor",
        "not a valid supervisor program") ∈ errs := by
      rw [h0]
      refine List.mem_append_right _ (hsub _ ?_)
      rw [← h2]
      exact List.mem_singleton.mpr rfl
    refine ⟨hmem2, ?_, hfree⟩
    rw [rest_create_eq env st n _ hfree]
    exact rest_validation_eq_dataFields env st n _ dres errs hsch hchk
      (List.ne_nil_of_mem hmem2)
  · intro env st n df sf dsvc k dres errs progs hsup hsch hchk hsvc hmem hsup2 hbad hfree
    obtain ⟨df', p, pf, w, rv, progsO, sf', sf2, es, hdf, hp, hpy, hwv, hrv, hsv,
      hchk2, hd, herrs, hlink⟩ := rest_checks_shape env _ dres errs hchk
    injection hdf with hdf
    subst hdf
    have hsf : sf' = sf := by
      rcases hsv with hh | ⟨hh, _⟩
      · rw [hsvc] at hh
        injection hh with hh
        injection hh with hh
        exact hh.symm
      · rw [hsvc] at hh
        exact absurd hh (by simp)
    rw [hsf] at hchk2
    rw [hlink progs hsup] at hchk2
    obtain ⟨d1, e, hstep, hsub⟩ :=
      restServicesCheck_mem (some progs) sf sf2 es k (JValue.obj dsvc) hchk2 hmem
    rw [serviceStep_implied_bad progs k dsvc hsup2 hbad] at hstep
    injection hstep with hstep
    injection hstep with h1 h2
    obtain ⟨e0, h0⟩ := herrs
    have hmem2 : ("record.services." ++ k, "not a valid supervisor program") ∈ errs := by
      rw [h0]
      refine List.mem_append_right _ (hsub _ ?_)
      rw [← h2]
      exact List.mem_singleton.mpr rfl
    refine ⟨hmem2, ?_, hfree⟩
    rw [rest_create_eq env st n _ hfree]
    exact rest_validation_eq_dataFields env st n _ dres errs hsch hchk
      (List.ne_nil_of_mem hmem2)

theorem c7_witness :
    wEnvNoSuper.supers = Except.ok ["other"] ∧
    (("record.services.api", "not a valid supervisor program") ∈
        [("record.services.api", "not a valid supervisor program")] ∧
      rest_create wEnvNoSuper wSt0 { name := some "api", record := some wRestRec } =
        Except.ok (Resp.dataFields
          [("record.services.api", "not a valid supervisor program")], wSt0) ∧
      ogetField (rest_read wSt0) "api" = none) :=
  ⟨rfl,
   c7_unknown_supervisor_rejected.2.2 wEnvNoSuper wSt0 "api"
     [("path", JValue.str "~/svc"), ("services", JValue.obj [("api", JValue.obj [])])]
     [("api", JValue.obj [])] [] "api" wRestRecStored
     [("record.services.api", "not a valid supervisor program")] ["other"]
     rfl rfl (by rfl) rfl (by simp) (Or.inl rfl) (by decide) rfl⟩

/-- C4: refuting evidence for the claim as stated, and the intended
behaviour on the boundary case.  When the supervisor-listing query fails and
the record has at least one service, the write raises — `lPrograms` is only
assigned inside the failed `try` block, so the membership test raises
`UnboundLocalError`, and no structured failure response is produced; with
zero services the failure is downgraded to a `DataFieldsError` entry on
`record.services` as the claim describes. -/
theorem c4_supervisor_query_failure_crashes :
    rest_create wEnvSuperFail wSt0 { name := some "api", record := some wRestRec } =
      Except.error "UnboundLocalError" ∧
    rest_create wEnvSuperFail wSt0
        { name := some "svc0",
          record := some (JValue.obj [("path", JValue.str "~/svc"),
            ("services", JValue.obj [])]) } =
      Except.ok (Resp.dataFields [("record.services", "CalledProcessError")], wSt0) :=
  ⟨by rfl, by rfl⟩

/-- C8 counterexample: the scenario create succeeds, but the subsequent read
returns the path as the stored "~/svc" — not expanded to an absolute form —
and `services.api` carries an explicit `supervisor` key set to null, where
the claim says the path is expanded and no `supervisor` key is present. -/
theorem c8_counterexample :
    rest_create wEnv wSt0 { name := some "api", record := some wRestRec } =
      Except.ok (Resp.ok, wStApiStored) ∧
    ogetField (rest_read wStApiStored) "api" = some wRestRecStored ∧
    jget wRestRecStored "path" = some (JValue.str "~/svc") ∧
    hasTilde "~/svc" = true ∧
    wEnv.expanduser "~/svc" = "/home/u/svc" ∧
    ("~/svc" : String) ≠ "/home/u/svc" ∧
    jget wRestRecStored "services" =
      some (JValue.obj [("api", JValue.obj [("supervisor", JValue.null)])]) ∧
    jget (JValue.obj [("supervisor", JValue.null)]) "supervisor" = some JValue.null :=
  ⟨by rfl, by rfl, by rfl, by rfl, by rfl, by decide, by rfl, by rfl⟩

/-- C8 (amended): creating a rest entry named "api" with path "~/svc", no
git or python blocks, and services {"api": {}} succeeds whenever the process
supervisor reports "api", the probed expansion of "~/svc" is an existing
directory, the schema accepts the record and the persist succeeds; a
subsequent rest read returns the entry with its path stored as the given
"~/svc" (tilde expansion applies only to the existence probe) and
`services.api` present with a `supervisor` key explicitly set to null. -/
theorem c8_api_scenario (env : Env) (progs : List String) (st : MState)
    (hsup : env.supers = Except.ok progs) (hapi : "api" ∈ progs)
    (hdir : env.isdir (resolvePath env "~/svc") = true)
    (hsch : env.restSchema wRestRec = none)
    (hper : env.persistOk = true)
    (hfree : ogetField st.conf.rest "api" = none) :
    ∃ st', rest_create env st { name := some "api", record := some wRestRec } =
        Except.ok (Resp.ok, st') ∧
      ∃ stored, ogetField (rest_read st') "api" = some stored ∧
        jget stored "path" = some (JValue.str "~/svc") ∧
        ∃ sv, jget stored "services" = some (JValue.obj sv) ∧
          ogetField sv "api" = some (JValue.obj [("supervisor", JValue.null)]) := by
  have hchk : rest_checks env wRestRec = Except.ok (wRestRecStored, []) := by
    have hps : pyStrip "~/svc" = "~/svc" := by rfl
    have hb : restServicesCheck (some progs) ([] : Fields) = Except.ok ([], []) := by rfl
    unfold rest_checks restPyCheck restSvcCheck restSvcRun restServicesCheck
      serviceStep pyFieldCheck
    rw [hsup]
    simp [wRestRec, wRestRecStored, jget, jset, ogetField, osetField, dirErrors, hdir, hapi,
      hps, hb]
  have hcr : rest_create env st { name := some "api", record := some wRestRec } =
      rest_validation env st "api" wRestRec := by
    show (if (ogetField st.conf.rest "api").isSome = true then
        Except.ok (Resp.duplicate "api" "rest", st)
      else rest_validation env st "api" wRestRec) = _
    rw [hfree]
    simp
  refine ⟨_, by
    rw [hcr, rest_validation_eq_ok env st "api" wRestRec wRestRecStored hsch hchk hper], ?_⟩
  refine ⟨wRestRecStored, ?_, by rfl, ?_⟩
  · show ogetField (osetField st.conf.rest "api" wRestRecStored) "api" = _
    exact ogetField_osetField_self _ _ _
  · exact ⟨[("api", JValue.obj [("supervisor", JValue.null)])], by rfl, by rfl⟩

theorem c8_witness :
    wEnv.supers = Except.ok ["api"] ∧ ("api" : String) ∈ ["api"] ∧
    wEnv.isdir (resolvePath wEnv "~/svc") = true ∧
    wEnv.restSchema wRestRec = none ∧ wEnv.persistOk = true ∧
    ogetField wSt0.conf.rest "api" = none ∧
    ∃ st', rest_create wEnv wSt0 { name := some "api", record := some wRestRec } =
        Except.ok (Resp.ok, st') ∧
      ∃ stored, ogetField (rest_read st') "api" = some stored ∧
        jget stored "path" = some (JValue.str "~/svc") ∧
        ∃ sv, jget stored "services" = some (JValue.obj sv) ∧
          ogetField sv "api" = some (JValue.obj [("supervisor", JValue.null)]) :=
  ⟨rfl, by decide, by rfl, rfl, rfl, rfl,
   c8_api_scenario wEnv ["api"] wSt0 rfl (by decide) (by rfl) rfl rfl rfl⟩

/-- C6: a create whose name is already present in the corresponding mapping
(portals or rest) returns the duplicate-name error and leaves the state —
in-memory configuration and persisted file — untouched. -/
theorem c6_duplicate_create_never_mutates (env : Env) (st : MState)
    (n : String) (rec : JValue) :
    ((ogetField st.conf.portals n).isSome = true →
      portal_create env st { name := some n, record := some rec } =
        Except.ok (Resp.duplicate n "portals", st)) ∧
    ((ogetField st.conf.rest n).isSome = true →
      rest_create env st { name := some n, record := some rec } =
        Except.ok (Resp.duplicate n "rest", st)) := by
  constructor
  · intro h
    simp [portal_create, h]
  · intro h
    simp [rest_create, h]

theorem c6_witness :
    ((ogetField wStApp.conf.portals "app").isSome = true ∧
      portal_create wEnv wStApp { name := some "app", record := some wPortalRec } =
        Except.ok (Resp.duplicate "app" "portals", wStApp)) ∧
    ((ogetField wStApi.conf.rest "api").isSome = true ∧
      rest_create wEnv wStApi { name := some "api", record := some wRestRec } =
        Except.ok (Resp.duplicate "api" "rest", wStApi)) :=
  ⟨⟨rfl, (c6_duplicate_create_never_mutates wEnv wStApp "app" wPortalRec).1 rfl⟩,
   ⟨rfl, (c6_duplicate_create_never_mutates wEnv wStApi "api" wRestRec).2 rfl⟩⟩

/-- C9: delete of an absent name fails with the not-found error and leaves
the state unchanged; delete of a present name (with the disk persist
succeeding) removes the entry, persists the configuration, returns success,
and a second delete of the same name then returns not-found. -/
theorem c9_delete_semantics (env : Env) (st : MState) (n : String) :
    ((ogetField st.conf.portals n = none →
      portal_delete env st { name := some n, record := none } =
        Except.ok (Resp.noRecord n "portal", st)) ∧
     ((ogetField st.conf.portals n).isSome = true → env.persistOk = true →
      ∃ st', portal_delete env st { name := some n, record := none } =
          Except.ok (Resp.ok, st') ∧
        ogetField st'.conf.portals n = none ∧
        st'.file = st'.conf ∧ st'.conf.rest = st.conf.rest ∧
        portal_delete env st' { name := some n, record := none } =
          Except.ok (Resp.noRecord n "portal", st'))) ∧
    ((ogetField st.conf.rest n = none →
      rest_delete env st { name := some n, record := none } =
        Except.ok (Resp.noRecord n "rest", st)) ∧
     ((ogetField st.conf.rest n).isSome = true → env.persistOk = true →
      ∃ st', rest_delete env st { name := some n, record := none } =
          Except.ok (Resp.ok, st') ∧
        ogetField st'.conf.rest n = none ∧
        st'.file = st'.conf ∧ st'.conf.portals = st.conf.portals ∧
        rest_delete env st' { name := some n, record := none } =
          Except.ok (Resp.noRecord n "rest", st'))) := by
  refine ⟨⟨fun h => portal_delete_absent env st n none h, fun h hper => ?_⟩,
    fun h => rest_delete_absent env st n none h, fun h hper => ?_⟩
  · refine ⟨_, portal_delete_present env st n none h hper, ?_, rfl, rfl, ?_⟩
    · exact ogetField_odelField_self _ _
    · exact portal_delete_absent env _ n none (ogetField_odelField_self _ _)
  · refine ⟨_, rest_delete_present env st n none h hper, ?_, rfl, rfl, ?_⟩
    · exact ogetField_odelField_self _ _
    · exact rest_delete_absent env _ n none (ogetField_odelField_self _ _)

theorem c9_witness :
    (ogetField wStApp.conf.portals "app").isSome = true ∧ wEnv.persistOk = true ∧
    ∃ st', portal_delete wEnv wStApp { name := some "app", record := none } =
        Except.ok (Resp.ok, st') ∧
      ogetField st'.conf.portals "app" = none ∧
      st'.file = st'.conf ∧ st'.conf.rest = wStApp.conf.rest ∧
      portal_delete wEnv st' { name := some "app", record := none } =
        Except.ok (Resp.noRecord "app" "portal", st') :=
  ⟨rfl, rfl, (c9_delete_semantics wEnv wStApp "app").1.2 rfl rfl⟩

/-- C10: every record that passes a successful create-or-update validation
carries its optional keys explicitly rather than omitting them: a persisted
portal record has a `node.nvm` key — null whenever the supplied alias was
absent, null or blank — and a persisted rest record has `python.which` and
`python.requirements` keys — null under the same condition — and an explicit
`supervisor` key on every stored service entry, set to null whenever that
service's supplied `supervisor` was absent, null or blank after trimming. -/
theorem c10_optional_keys_always_present :
    (∀ (env : Env) (st : MState) (n : String) (data : JValue) (st' : MState),
      portal_validation env st n data = Except.ok (Resp.ok, st') →
      ∃ stored nd nv, ogetField st'.conf.portals n = some stored ∧
        jget stored "node" = some nd ∧ jget nd "nvm" = some nv ∧
        ((∀ s nf, jget data "node" = some (JValue.obj nf) →
            ogetField nf "nvm" = some (JValue.str s) → pyStrip s = "") →
          nv = JValue.null)) ∧
    (∀ (env : Env) (st : MState) (n : String) (data : JValue) (st' : MState),
      rest_validation env st n data = Except.ok (Resp.ok, st') →
      ∃ stored py w rv, ogetField st'.conf.rest n = some stored ∧
        jget stored "python" = some py ∧
        jget py "which" = some w ∧ jget py "requirements" = some rv ∧
        ((∀ s pf, jget data "python" = some (JValue.obj pf) →
            ogetField pf "which" = some (JValue.str s) → pyStrip s = "") →
          w = JValue.null) ∧
        ((∀ s pf, jget data "python" = some (JValue.obj pf) →
            ogetField pf "requirements" = some (JValue.str s) → pyStrip s = "") →
          rv = JValue.null) ∧
        ∃ sf sv,
          (jget data "services" = some (JValue.obj sf) ∨
            (jget data "services" = none ∧ sf = [])) ∧
          jget stored "services" = some (JValue.obj sv) ∧
          (∀ q ∈ sv, ∃ v, jget q.2 "supervisor" = some v) ∧
          List.Forall₂ (fun q q2 : String × JValue => q2.1 = q.1 ∧
            ∃ df2 v, q.2 = JValue.obj df2 ∧
              q2.2 = JValue.obj (osetField df2 "supervisor" v) ∧
              jget q2.2 "supervisor" = some v ∧
              ((ogetField df2 "supervisor" = none ∨
                ogetField df2 "supervisor" = some JValue.null ∨
                ∃ s, ogetField df2 "supervisor" = some (JValue.str s) ∧
                  pyStrip s = "") →
                v = JValue.null)) sf sv) := by
  constructor
  · intro env st n data st' h
    obtain ⟨hsch, hper, d, hchk, hport, hrest, hfile⟩ :=
      portal_validation_ok env st n data st' h
    obtain ⟨df, p, o, nf, nv, hdf, hp, ho, hnode, hd, hnv⟩ :=
      portal_checks_shape env data d [] hchk
    refine ⟨d, JValue.obj (osetField nf "nvm" nv), nv, ?_, ?_, ?_, ?_⟩
    · rw [hport]
      exact ogetField_osetField_self _ _ _
    · rw [hd]
      show ogetField _ "node" = _
      rw [ogetField_osetField_self]
    · show ogetField _ "nvm" = _
      rw [ogetField_osetField_self]
    · intro hblank
      rcases hnv with h1 | ⟨s, hs1, hs2, hs3⟩
      · exact h1
      · rcases hnode with hn | ⟨hn, rfl⟩
        · exact absurd (hblank s nf (by rw [hdf]; exact hn) hs1) hs2
        · simp [ogetField] at hs1
  · intro env st n data st' h
    obtain ⟨hsch, hper, d, hchk, hrest, hport, hfile⟩ :=
      rest_validation_ok env st n data st' h
    obtain ⟨df, p, pf, w, rv, progsO, sf, sf2, es, hdf, hp, hpy, hwv, hrv, hsv,
      hchk2, hd, herrs, hlink⟩ := rest_checks_shape env data d [] hchk
    refine ⟨d, JValue.obj (osetField (osetField pf "which" w) "requirements" rv),
      w, rv, ?_, ?_, ?_, ?_, ?_, ?_, ?_⟩
    · rw [hrest]
      exact ogetField_osetField_self _ _ _
    · rw [hd]
      show ogetField _ "python" = _
      rw [ogetField_osetField_ne _ "services" "python" _ (by decide),
        ogetField_osetField_self]
    · show ogetField _ "which" = _
      rw [ogetField_osetField_ne _ "requirements" "which" _ (by decide),
        ogetField_osetField_self]
    · show ogetField _ "requirements" = _
      rw [ogetField_osetField_self]
    · intro hblank
      rcases hwv with h1 | ⟨s, hs1, hs2, hs3⟩
      · exact h1
      · rcases hpy with hn | ⟨hn, rfl⟩
        · exact absurd (hblank s pf (by rw [hdf]; exact hn) hs1) hs2
        · simp [ogetField] at hs1
    · intro hblank
      rcases hrv with h1 | ⟨s, hs1, hs2, hs3⟩
      · exact h1
      · rcases hpy with hn | ⟨hn, rfl⟩
        · exact absurd (hblank s pf (by rw [hdf]; exact hn) hs1) hs2
        · simp [ogetField] at hs1
    · refine ⟨sf, sf2, ?_, ?_, ?_, ?_⟩
      · rcases hsv with hh | ⟨hh, hnil⟩
        · exact Or.inl (by rw [hdf]; exact hh)
        · exact Or.inr ⟨by rw [hdf]; exact hh, hnil⟩
      · rw [hd]
        show ogetField _ "services" = _
        rw [ogetField_osetField_self]
      · exact restServicesCheck_sup progsO sf sf2 es hchk2
      · refine List.Forall₂.imp ?_ (restServicesCheck_forall2 progsO sf sf2 es hchk2)
        intro a b hab
        obtain ⟨hk, df2, v, hda, hdb, hx⟩ := hab
        refine ⟨hk, df2, v, hda, hdb, ?_, ?_⟩
        · rw [hdb]
          show ogetField _ "supervisor" = _
          rw [ogetField_osetField_self]
        · intro habs
          rcases hx with h1 | ⟨s, hs1, hs2, hs3⟩
          · exact h1
          · rcases habs with h2 | h2 | ⟨s2, h2, hps⟩
            · rw [h2] at hs1
              exact absurd hs1 (by simp)
            · rw [h2] at hs1
              injection hs1 with hs1
              exact absurd hs1 (by simp)
            · rw [h2] at hs1
              injection hs1 with hs1
              injection hs1 with hs1
              subst hs1
              exact absurd hps hs2

theorem c10_witness :
    (portal_validation wEnv wStApp "app"
        (JValue.obj [("path", JValue.str "/home/u/app"),
          ("output", JValue.str "/home/u/out")]) =
      Except.ok (Resp.ok, wStAppNvmNull) ∧
    ∃ stored nd nv, ogetField wStAppNvmNull.conf.portals "app" = some stored ∧
      jget stored "node" = some nd ∧ jget nd "nvm" = some nv ∧
      ((∀ s nf, jget (JValue.obj [("path", JValue.str "/home/u/app"),
            ("output", JValue.str "/home/u/out")]) "node" = some (JValue.obj nf) →
          ogetField nf "nvm" = some (JValue.str s) → pyStrip s = "") →
        nv = JValue.null)) ∧
    (rest_validation wEnv wSt0 "api" wRestRec = Except.ok (Resp.ok, wStApiStored) ∧
    ∃ stored py w rv, ogetField wStApiStored.conf.rest "api" = some stored ∧
      jget stored "python" = some py ∧
      jget py "which" = some w ∧ jget py "requirements" = some rv ∧
      ((∀ s pf, jget wRestRec "python" = some (JValue.obj pf) →
          ogetField pf "which" = some (JValue.str s) → pyStrip s = "") →
        w = JValue.null) ∧
      ((∀ s pf, jget wRestRec "python" = some (JValue.obj pf) →
          ogetField pf "requirements" = some (JValue.str s) → pyStrip s = "") →
        rv = JValue.null) ∧
      ∃ sf sv,
        (jget wRestRec "services" = some (JValue.obj sf) ∨
          (jget wRestRec "services" = none ∧ sf = [])) ∧
        jget stored "services" = some (JValue.obj sv) ∧
        (∀ q ∈ sv, ∃ v, jget q.2 "supervisor" = some v) ∧
        List.Forall₂ (fun q q2 : String × JValue => q2.1 = q.1 ∧
          ∃ df2 v, q.2 = JValue.obj df2 ∧
            q2.2 = JValue.obj (osetField df2 "supervisor" v) ∧
            jget q2.2 "supervisor" = some v ∧
            ((ogetField df2 "supervisor" = none ∨
              ogetField df2 "supervisor" = some JValue.null ∨
              ∃ s, ogetField df2 "supervisor" = some (JValue.str s) ∧
                pyStrip s = "") →
              v = JValue.null)) sf sv) :=
  ⟨⟨by rfl,
    c10_optional_keys_always_present.1 wEnv wStApp "app"
      (JValue.obj [("path", JValue.str "/home/u/app"),
        ("output", JValue.str "/home/u/out")]) wStAppNvmNull (by rfl)⟩,
   by rfl,
   c10_optional_keys_always_present.2 wEnv wSt0 "api" wRestRec wStApiStored (by rfl)⟩

end BodyManage
